import Mathlib

/-!
# Velora: the resilient Gemini fetcher of `src/App.jsx`

A shallow embedding of `GeminiFetcher` (App.jsx, lines 29-64) and of the parts of
`EventPlannerModal` that call it (`handleGenerateVibe`, lines 98-136, and the
guest-count handler of line 213), together with the theorems that settle the
statements of the specification about them.

Modelling conventions.

* The asynchronous function is embedded as a pure function from an environment
  `Env` (what the browser answers: the outcome of each `fetch`, the value of each
  `Math.random()` draw, and the built-ins `JSON.parse`, `JSON.stringify` and the
  `ToString` coercion) to a `Run`: the terminal outcome (returned value or thrown
  error) and the ordered trace of observable effects (network calls, timer waits,
  console output).
* `await` points are sequential composition; a rejected promise is a thrown error,
  modelled by `Except.error`.
* JavaScript numbers are doubles, modelled by their rational values. Every product
  and sum of `Math.pow(2, attempt) * 1000 + Math.random() * 1000` is rounded to the
  nearest number with 53 significant bits, ties to even (`roundDouble`), as IEEE-754
  binary64 does; the exponent range is taken unbounded (no overflow, no subnormal
  numbers), which is exact for every value the fetcher computes with its bound.
-/

namespace Velora

/-! ## Data model -/

/-- JavaScript value produced by parsing JSON text. Objects are the list of their
own properties (looked up by first match); numbers are given by their rational
value. -/
inductive Json where
  | null : Json
  | bool (b : Bool) : Json
  | num (x : ℚ) : Json
  | str (s : String) : Json
  | arr (items : List Json) : Json
  | obj (members : List (String × Json)) : Json

/-- JavaScript error object: constructor name and `message`. -/
structure JSError where
  name : String
  message : String
deriving DecidableEq

/-- Property key of a member access: `.candidates` is `named "candidates"`,
`[0]` is `index 0`. -/
inductive PropKey where
  | named (s : String) : PropKey
  | index (i : Nat) : PropKey

/-- Member access `v[key]` on a value that is neither `null` nor `undefined`;
`none` is `undefined`. Only own data properties are modelled (the fetcher reads
`candidates`, `content`, `parts`, `text` and index `0`, none of which is inherited). -/
def Json.getProp : Json → PropKey → Option Json
  | .obj ms, .named k => ms.lookup k
  | .obj ms, .index i => ms.lookup (toString i)
  | .arr xs, .index i => xs[i]?
  | .str s, .index i => (s.data[i]?).map (fun c => Json.str (String.singleton c))
  | _, _ => none

/-- Optional chaining `v?.[key]`: `undefined` when `v` is `null` or `undefined`. -/
def optChain (v : Option Json) (key : PropKey) : Option Json :=
  match v with
  | none => none
  | some .null => none
  | some x => x.getProp key

/-- JavaScript truthiness of a value (`none` is `undefined`). -/
def truthy : Option Json → Bool
  | none => false
  | some .null => false
  | some (.bool b) => b
  | some (.num x) => decide (x ≠ 0)
  | some (.str s) => decide (s ≠ "")
  | some (.arr _) => true
  | some (.obj _) => true

/-- Line 11: `const MAX_RETRIES = 5`. -/
def MAX_RETRIES : Nat := 5

/-- Line 10: `GEMINI_API_URL` (with `MODEL_NAME` and the empty `API_KEY` spliced in). -/
def GEMINI_API_URL : String :=
  "https://generativelanguage.googleapis.com/v1beta/models/gemini-2.5-flash-preview-09-2025:generateContent?key="

/-- The request handed to `fetch` (lines 33-37). -/
structure Request where
  url : String
  method : String
  contentType : String
  body : String
deriving DecidableEq

/-- What `fetch` resolves to: the status code and the body text (reading the body
may itself fail, for instance when the connection drops). -/
structure Response where
  status : Nat
  body : Except JSError String

/-- `response.ok`: the status is in the range 200-299. -/
def Response.ok (r : Response) : Bool :=
  decide (200 ≤ r.status) && decide (r.status ≤ 299)

/-- The environment of one invocation. `fetch k req` is the outcome of the call
made when `k` calls were made before it; `random k` is the value of the draw made
when `k` draws were made before it; `parse` is `JSON.parse` on a string,
`stringify` is `JSON.stringify`, `toStr` is the `ToString` coercion that
`JSON.parse` applies to an argument that is not a string. -/
structure Env where
  fetch : Nat → Request → Except JSError Response
  random : Nat → ℚ
  parse : String → Except JSError Json
  stringify : Json → String
  toStr : Json → String

/-- `response.json()`: read the body text and parse it as JSON. -/
def Response.json (env : Env) (r : Response) : Except JSError Json :=
  match r.body with
  | .error e => .error e
  | .ok text => env.parse text

/-- `JSON.parse(v)` for an arbitrary value: a string is parsed as it is, any other
value is first coerced to a string. -/
def JSONparse (env : Env) : Json → Except JSError Json
  | .str s => env.parse s
  | v => env.parse (env.toStr v)

/-- Observable effects of an invocation, in the order they happen. -/
inductive Event where
  | fetchCall (req : Request) : Event
  | sleep (ms : ℚ) : Event
  | consoleError (lastError : Option JSError) : Event

/-- Number of network calls in a trace. -/
def callCount : List Event → Nat
  | [] => 0
  | .fetchCall _ :: es => callCount es + 1
  | _ :: es => callCount es

/-- The backoff waits of a trace, in order. -/
def delays : List Event → List ℚ
  | [] => []
  | .sleep d :: es => d :: delays es
  | _ :: es => delays es

/-- Terminal outcome of an invocation together with its trace. -/
structure Run where
  outcome : Except JSError Json
  trace : List Event

/-- Loop-carried state: `lastError` (initially `null`) and the trace so far. -/
structure LoopState where
  lastError : Option JSError
  trace : List Event

/-! ## The fetcher -/

/-- Lines 33-37: the arguments of the `fetch` call. -/
def request (env : Env) (payload : Json) : Request :=
  { url := GEMINI_API_URL, method := "POST", contentType := "application/json",
    body := env.stringify payload }

/-- Line 45: `result.candidates?.[0]?.content?.parts?.[0]?.text`. The first access
is not optional, so it throws a `TypeError` when `result` is `null`. -/
def extractText (result : Json) : Except JSError (Option Json) :=
  match result with
  | .null =>
    .error ⟨"TypeError", "Cannot read properties of null (reading \x27candidates\x27)"⟩
  | r =>
    .ok (optChain (optChain (optChain (optChain (optChain
      (r.getProp (.named "candidates")) (.index 0)) (.named "content"))
      (.named "parts")) (.index 0)) (.named "text"))

/-- Line 41: the error thrown for a response that is not ok. -/
def statusError (env : Env) (status : Nat) (errorBody : Json) : JSError :=
  ⟨"Error", "API responded with status " ++ toString status ++ ": " ++ env.stringify errorBody⟩

/-- Line 48: the error thrown when the text is missing or falsy. -/
def malformedError : JSError :=
  ⟨"Error", "Received an empty or malformed response from the LLM."⟩

/-- Lines 33-52, the body of the `try` block of the call made after `call` earlier
calls: `.ok v` when the block returns `v`, `.error e` when it throws `e`. -/
def tryBlock (env : Env) (payload : Json) (call : Nat) : Except JSError Json :=
  match env.fetch call (request env payload) with
  | .error e => .error e
  | .ok response =>
    if !response.ok then
      match response.json env with
      | .error e => .error e
      | .ok errorBody => .error (statusError env response.status errorBody)
    else
      match response.json env with
      | .error e => .error e
      | .ok result =>
        match extractText result with
        | .error e => .error e
        | .ok jsonText =>
          if !truthy jsonText then .error malformedError
          else
            match jsonText with
            | none => .error malformedError
            | some text => JSONparse env text

/-- Rounding of a rational to the nearest integer, ties to the even one. -/
def roundHalfEven (q : ℚ) : ℤ :=
  if q - Int.floor q < 1 / 2 then Int.floor q
  else if 1 / 2 < q - Int.floor q then Int.floor q + 1
  else if Int.floor q % 2 = 0 then Int.floor q
  else Int.floor q + 1

/-- Rounding of the exact result of an arithmetic operation to a double (IEEE-754
binary64, round to nearest, ties to even): with `e = Int.log 2 x` the binary
exponent of `x`, the value is rounded to a multiple of `2^(e - 52)`, which leaves
53 significant bits. The exponent range is unbounded. -/
def roundDouble (x : ℚ) : ℚ :=
  if 0 < x then
    (roundHalfEven (x * 2 ^ (52 - Int.log 2 x)) : ℚ) / 2 ^ (52 - Int.log 2 x)
  else if x < 0 then
    -((roundHalfEven (-x * 2 ^ (52 - Int.log 2 (-x))) : ℚ) / 2 ^ (52 - Int.log 2 (-x)))
  else 0

/-- Line 57: `Math.pow(2, attempt) * 1000 + Math.random() * 1000`, with `r` the
value drawn by `Math.random()`. `Math.pow(2, attempt)` is a power of two, hence a
double; the two products and the sum are each rounded to a double. -/
def backoffDelay (attempt : Nat) (r : ℚ) : ℚ :=
  roundDouble (roundDouble ((2 : ℚ) ^ attempt * 1000) + roundDouble (r * 1000))

/-- The fixed part of the message of line 63. -/
def exhaustionText : String :=
  "Failed to communicate with the AI service. Please try again later. Details: "

/-- Lines 62-63: log, then throw the error built from `lastError.message`; reading
`message` of `null` throws a `TypeError` instead. -/
def afterLoop (st : LoopState) : Run :=
  match st.lastError with
  | none =>
    { outcome := .error ⟨"TypeError", "Cannot read properties of null (reading \x27message\x27)"⟩,
      trace := st.trace ++ [.consoleError none] }
  | some e =>
    { outcome := .error ⟨"Error", exhaustionText ++ e.message⟩,
      trace := st.trace ++ [.consoleError (some e)] }

/-- Lines 54-60, the `catch` block of iteration `attempt`: record the error and,
unless this was the last iteration, wait for the backoff delay. -/
def catchBlock (env : Env) (N : Nat) (attempt : Nat) (st : LoopState) (error : JSError) :
    LoopState :=
  if (attempt : Int) < (N : Int) - 1 then
    { lastError := some error,
      trace := st.trace ++ [.sleep (backoffDelay attempt (env.random (delays st.trace).length))] }
  else
    { lastError := some error, trace := st.trace }

/-- Lines 31-63: the `for` loop from the loop test with counter `attempt` onwards,
followed by the code after the loop. `N` is the bound the test compares with. -/
def retryLoop (env : Env) (N : Nat) (payload : Json) (attempt : Nat) (st : LoopState) : Run :=
  if attempt < N then
    match tryBlock env payload (callCount st.trace) with
    | .ok v =>
      { outcome := .ok v, trace := st.trace ++ [.fetchCall (request env payload)] }
    | .error error =>
      retryLoop env N payload (attempt + 1)
        (catchBlock env N attempt
          { st with trace := st.trace ++ [.fetchCall (request env payload)] } error)
  else
    afterLoop st
termination_by N - attempt

/-- `GeminiFetcher` with the retry bound as a parameter. -/
def GeminiFetcherWith (N : Nat) (env : Env) (payload : Json) : Run :=
  retryLoop env N payload 0 { lastError := none, trace := [] }

/-- Lines 29-64: `GeminiFetcher(payload)`. -/
def GeminiFetcher (env : Env) (payload : Json) : Run :=
  GeminiFetcherWith MAX_RETRIES env payload

/-! ## Reference descriptions used in the statements -/

/-- The error thrown by the `try` block of call `k` (a placeholder when it returns). -/
def errorOf (env : Env) (payload : Json) (k : Nat) : JSError :=
  match tryBlock env payload k with
  | .error e => e
  | .ok _ => ⟨"", ""⟩

/-- The trace of `m` failed iterations under bound `N`: a call per iteration, each
followed by its backoff wait except in iteration `N - 1`. -/
def failedTrace (env : Env) (N : Nat) (payload : Json) : Nat → List Event
  | 0 => []
  | m + 1 =>
    failedTrace env N payload m ++
      (Event.fetchCall (request env payload) ::
        if (m : Int) < (N : Int) - 1 then [Event.sleep (backoffDelay m (env.random m))] else [])

/-- The value of `lastError` after `m` failed iterations. -/
def lastErrorAfter (env : Env) (payload : Json) : Nat → Option JSError
  | 0 => none
  | m + 1 => some (errorOf env payload m)

/-- The response shape of the provider: `envelope.candidates` is an array whose
first element has a `content` whose `parts` is an array whose first element has the
member `text`, with value `text`. -/
def HasText (envelope text : Json) : Prop :=
  ∃ c cs content p ps,
    envelope.getProp (.named "candidates") = some (.arr (c :: cs)) ∧
    c.getProp (.named "content") = some content ∧
    content.getProp (.named "parts") = some (.arr (p :: ps)) ∧
    p.getProp (.named "text") = some text

/-- The ways in which the nested text can be absent from an envelope: no
`candidates`, an empty `candidates` array, no `content` on the first candidate, no
`parts` on its content, an empty `parts` array, no `text` on the first part. -/
inductive MissingText : Json → Prop
  | noCandidates (envelope : Json) :
      envelope.getProp (.named "candidates") = none → MissingText envelope
  | emptyCandidates (envelope : Json) :
      envelope.getProp (.named "candidates") = some (.arr []) → MissingText envelope
  | noContent (envelope c : Json) (cs : List Json) :
      envelope.getProp (.named "candidates") = some (.arr (c :: cs)) →
      c.getProp (.named "content") = none → MissingText envelope
  | noParts (envelope c : Json) (cs : List Json) (content : Json) :
      envelope.getProp (.named "candidates") = some (.arr (c :: cs)) →
      c.getProp (.named "content") = some content →
      content.getProp (.named "parts") = none → MissingText envelope
  | emptyParts (envelope c : Json) (cs : List Json) (content : Json) :
      envelope.getProp (.named "candidates") = some (.arr (c :: cs)) →
      c.getProp (.named "content") = some content →
      content.getProp (.named "parts") = some (.arr []) → MissingText envelope
  | noText (envelope c : Json) (cs : List Json) (content p : Json) (ps : List Json) :
      envelope.getProp (.named "candidates") = some (.arr (c :: cs)) →
      c.getProp (.named "content") = some content →
      content.getProp (.named "parts") = some (.arr (p :: ps)) →
      p.getProp (.named "text") = none → MissingText envelope

/-- The error a `try` block throws on an envelope without text: reading
`candidates` of `null` throws before the check of line 47 is reached. -/
def missingTextError : Json → JSError
  | .null => ⟨"TypeError", "Cannot read properties of null (reading \x27candidates\x27)"⟩
  | _ => malformedError

/-- An envelope of the provider shape around the value `text`. -/
def envelopeOf (text : Json) : Json :=
  .obj [("candidates", .arr [.obj [("content", .obj [("parts", .arr [.obj [("text", text)]])])]])]

/-- A transport that answers every call with status 200 and an envelope whose
`candidates` array is empty. -/
def emptyCandidatesEnv : Env :=
  { fetch := fun _ _ => .ok { status := 200, body := .ok "\x7b\"candidates\":[]\x7d" }
    random := fun _ => 1 / 4
    parse := fun s =>
      if s = "\x7b\"candidates\":[]\x7d" then .ok (.obj [("candidates", .arr [])])
      else .error ⟨"SyntaxError", "Unexpected end of JSON input"⟩
    stringify := fun _ => "null"
    toStr := fun _ => "null" }

/-- A transport that answers every call with status 200 and a well-formed envelope
whose text is not JSON. -/
def badTextEnv : Env :=
  { fetch := fun _ _ => .ok { status := 200, body := .ok "envelope" }
    random := fun _ => 3 / 4
    parse := fun s =>
      if s = "envelope" then .ok (envelopeOf (.str "Sorry, I cannot help with that."))
      else .error ⟨"SyntaxError", "Unexpected token S in JSON at position 0"⟩
    stringify := fun _ => "null"
    toStr := fun _ => "null" }

/-- A transport whose first call is rejected and whose later calls are answered
with status 503 and the body of an empty JSON object. -/
def flakyEnv : Env :=
  { fetch := fun k _ =>
      if k = 0 then .error ⟨"TypeError", "Failed to fetch"⟩
      else .ok { status := 503, body := .ok "\x7b\x7d" }
    random := fun _ => 0
    parse := fun s =>
      if s = "\x7b\x7d" then .ok (.obj [])
      else .error ⟨"SyntaxError", "Unexpected end of JSON input"⟩
    stringify := fun _ => "\x7b\x7d"
    toStr := fun _ => "null" }

/-- The text `part` occurs in the text `msg`. -/
def Mentions (msg part : String) : Prop :=
  part.data <:+: msg.data

/-- A transport that answers every call with status 503 and an empty body, as a
gateway in front of the service does. -/
def gatewayEnv : Env :=
  { fetch := fun _ _ => .ok { status := 503, body := .ok "" }
    random := fun _ => 0
    parse := fun s =>
      if s = "\x7b\x7d" then .ok (.obj [])
      else .error ⟨"SyntaxError", "Unexpected end of JSON input"⟩
    stringify := fun _ => "\x7b\x7d"
    toStr := fun _ => "null" }

/-- A transport that answers every call with status 503 and the body of an empty
JSON object. -/
def unavailableEnv : Env :=
  { gatewayEnv with fetch := fun _ _ => .ok { status := 503, body := .ok "\x7b\x7d" } }

/-- A transport whose first two calls are answered with status 500 and whose third
call is answered with a well-formed envelope. -/
def thirdTimeEnv : Env :=
  { fetch := fun k _ =>
      if k < 2 then .ok { status := 500, body := .ok "oops" }
      else .ok { status := 200, body := .ok "envelope" }
    random := fun _ => 1 / 2
    parse := fun s =>
      if s = "envelope" then
        .ok (.obj [("candidates", .arr [.obj [("content",
          .obj [("parts", .arr [.obj [("text", .str "payload")]])])]])])
      else if s = "payload" then .ok (.obj [("themeSuggestion", .str "X")])
      else .error ⟨"SyntaxError", "Unexpected token"⟩
    stringify := fun _ => "null"
    toStr := fun _ => "null" }

/-- A transport that answers every call with the same rejection. -/
def downEnv : Env :=
  { fetch := fun _ _ => .error ⟨"TypeError", "Failed to fetch"⟩
    random := fun _ => 1 / 2
    parse := fun _ => .error ⟨"SyntaxError", "Unexpected end of JSON input"⟩
    stringify := fun _ => "null"
    toStr := fun _ => "null" }

/-! ## The event planner form -/

/-- Line 103: `systemPrompt`. -/
def systemPrompt : String :=
  "You are a world-class luxury event planner for a high-end rooftop restaurant called Velora. Your goal is to generate elegant, sophisticated, and creative suggestions for private dining events based on user input. Respond with only a JSON object."

/-- Line 105: `userQuery`, the template literal with the three form fields spliced
in (`guests` is a number, printed in decimal). -/
def userQuery (eventType : String) (guests : Int) (vibe : String) : String :=
  "Generate a creative event suggestion for: Event Type: " ++ eventType ++ ", Guests: " ++
    toString guests ++ " people, Vibe/Keywords: " ++ vibe ++
    ". Focus on a high-end, elegant execution for a Pune rooftop."

/-- Lines 107-126: the object `payload` built by `handleGenerateVibe`. -/
def vibePayload (eventType : String) (guests : Int) (vibe : String) : Json :=
  .obj [
    ("contents", .arr [.obj [("parts", .arr [.obj [("text",
      .str (userQuery eventType guests vibe))]])]]),
    ("systemInstruction", .obj [("parts", .arr [.obj [("text", .str systemPrompt)]])]),
    ("generationConfig", .obj [
      ("responseMimeType", .str "application/json"),
      ("responseSchema", .obj [
        ("type", .str "OBJECT"),
        ("properties", .obj [
          ("themeSuggestion", .obj [("type", .str "STRING"),
            ("description", .str "A one-line creative theme name.")]),
          ("themeDescription", .obj [("type", .str "STRING"),
            ("description",
              .str "A short, elegant description of the theme, 2 sentences max.")]),
          ("signatureCocktail", .obj [("type", .str "STRING"),
            ("description", .str "A creative name for a signature cocktail.")]),
          ("cocktailRecipeIdea", .obj [("type", .str "STRING"),
            ("description",
              .str "A brief description of the cocktail ingredients/flavor, 1 sentence.")]),
          ("invitationDraft", .obj [("type", .str "STRING"),
            ("description",
              .str "A short, elegant draft of an invitation message, 3 sentences max.")])]),
        ("required", .arr [.str "themeSuggestion", .str "themeDescription",
          .str "signatureCocktail", .str "cocktailRecipeIdea", .str "invitationDraft"])])])]

/-- Lines 144-157: the members of `result` that `ResultDisplay` reads, in the
order in which they are rendered. -/
def resultDisplayFields : List String :=
  ["themeSuggestion", "themeDescription", "signatureCocktail", "cocktailRecipeIdea",
    "invitationDraft"]

/-- Lines 70-75: the state of `EventPlannerModal`. `result` is a JavaScript value
(`Json.null` is `null`), `error` is `null` (`none`) or a string. -/
structure FormState where
  eventType : String
  guests : Int
  vibe : String
  isLoading : Bool
  result : Json
  error : Option String

/-- Lines 70-75: the initial values given to `useState`. -/
def initialFormState : FormState :=
  { eventType := "Birthday", guests := 10, vibe := "Sophisticated, intimate, and celebratory",
    isLoading := false, result := .null, error := none }

/-- Lines 98-136: `handleGenerateVibe`, as the state it leaves behind. The three
setters of lines 99-101 run first; the `catch` of line 131 handles whatever the
`try` block throws and the `finally` of line 133 runs on both paths, so the function
itself returns normally (`.ok`) on every path. -/
def handleGenerateVibe (env : Env) (st : FormState) : Except JSError FormState :=
  let st1 := { st with isLoading := true }
  let st2 := { st1 with error := none }
  let st3 := { st2 with result := Json.null }
  let payload := vibePayload st.eventType st.guests st.vibe
  let st4 :=
    match (GeminiFetcher env payload).outcome with
    | .ok data => { st3 with result := data }
    | .error err => { st3 with error := some err.message }
  .ok { st4 with isLoading := false }

/-- Line 213: `Math.min(30, Math.max(1, parseInt(e.target.value) || 1))`, the value
handed to `setGuests`. The built-in `parseInt` is a parameter: `none` is `NaN`,
`some n` is the integer it read (a result beyond the range of doubles is stood for
by the integer itself, which the clamp treats alike). -/
def onGuestsChange (parseInt : String → Option Int) (value : String) : Int :=
  min 30 (max 1
    (match parseInt value with
     | none => 1
     | some n => if n = 0 then 1 else n))

/-! ## The built-in `parseInt` -/

/-- The code points that ECMAScript counts as white space or line terminator, which
`parseInt` skips at the start of its argument. -/
def isJSWhiteSpace (c : Char) : Bool :=
  [0x09, 0x0A, 0x0B, 0x0C, 0x0D, 0x20, 0xA0, 0x1680, 0x2000, 0x2001, 0x2002, 0x2003, 0x2004,
    0x2005, 0x2006, 0x2007, 0x2008, 0x2009, 0x200A, 0x2028, 0x2029, 0x202F, 0x205F, 0x3000,
    0xFEFF].contains c.toNat

/-- The value of a character as a digit: `0`-`9`, then the letters of either case
from 10 on. -/
def digitValue (c : Char) : Option Nat :=
  if 48 ≤ c.toNat ∧ c.toNat ≤ 57 then some (c.toNat - 48)
  else if 97 ≤ c.toNat ∧ c.toNat ≤ 122 then some (c.toNat - 87)
  else if 65 ≤ c.toNat ∧ c.toNat ≤ 90 then some (c.toNat - 55)
  else none

/-- The value of a character that is a digit in radix `R`. -/
def radixDigit (R : Nat) (c : Char) : Option Nat :=
  match digitValue c with
  | some d => if d < R then some d else none
  | none => none

/-- The values of the longest run of radix-`R` digits at the start of the text. -/
def leadingDigits (R : Nat) : List Char → List Nat
  | [] => []
  | c :: cs =>
    match radixDigit R c with
    | some d => d :: leadingDigits R cs
    | none => []

/-- Remove a leading `-` or `+`; the flag tells whether it was `-`. -/
def stripSign : List Char → Bool × List Char
  | [] => (false, [])
  | c :: cs =>
    if c.toNat = 45 then (true, cs)
    else if c.toNat = 43 then (false, cs)
    else (false, c :: cs)

/-- Remove a leading `0x` or `0X`; the number is the radix, 16 when it was there
and 10 otherwise (no radix argument is passed on line 213). -/
def stripHex : List Char → Nat × List Char
  | c :: d :: cs =>
    if c.toNat = 48 ∧ (d.toNat = 120 ∨ d.toNat = 88) then (16, cs) else (10, c :: d :: cs)
  | cs => (10, cs)

/-- The steps of `parseInt(string)` of ECMAScript on the characters of the text:
skip white space, take the sign, take the hexadecimal mark, read the longest run of
digits; `none` is `NaN` (no digit). The integer is kept exact where the built-in
rounds it to a double. -/
def parseIntChars (cs : List Char) : Option Int :=
  let signed := stripSign (cs.dropWhile isJSWhiteSpace)
  let based := stripHex signed.2
  match leadingDigits based.1 based.2 with
  | [] => none
  | d :: ds =>
    let mathInt : Nat := (d :: ds).foldl (fun acc x => acc * based.1 + x) 0
    some (if signed.1 then - (mathInt : Int) else (mathInt : Int))

/-- The built-in `parseInt` called with one argument. -/
def parseInt (s : String) : Option Int :=
  parseIntChars s.data

/-! ## Further reference descriptions -/

/-- Line 123: the names listed as `required` in the response schema. -/
def requiredFields : List String :=
  ["themeSuggestion", "themeDescription", "signatureCocktail", "cocktailRecipeIdea",
    "invitationDraft"]

/-- The value has each of the five required members, with a string value. -/
def hasRequiredFields (v : Json) : Bool :=
  requiredFields.all (fun f =>
    match v.getProp (.named f) with
    | some (.str _) => true
    | _ => false)

/-- Whether the `try` block of call `k` returns. -/
def succeeds (env : Env) (payload : Json) (k : Nat) : Bool :=
  match tryBlock env payload k with
  | .ok _ => true
  | .error _ => false

/-- An event with the logged error left out. -/
def eraseLogged : Event → Event
  | .consoleError _ => .consoleError none
  | e => e

/-- The names of the own properties of an object, in order. -/
def Json.keys : Json → List String
  | .obj ms => ms.map Prod.fst
  | _ => []

/-- A transport that answers every call with a well-formed envelope whose text is
the JSON number 42. -/
def numberEnv : Env :=
  { fetch := fun _ _ => .ok { status := 200, body := .ok "envelope" }
    random := fun _ => 1 / 2
    parse := fun s =>
      if s = "envelope" then .ok (envelopeOf (.str "42"))
      else if s = "42" then .ok (.num 42)
      else .error ⟨"SyntaxError", "Unexpected end of JSON input"⟩
    stringify := fun _ => "null"
    toStr := fun _ => "null" }

/-- A transport that answers every call with a well-formed envelope whose text is
a JSON object with four of the five required members (no `invitationDraft`). -/
def fourFieldsEnv : Env :=
  { fetch := fun _ _ => .ok { status := 200, body := .ok "envelope" }
    random := fun _ => 1 / 2
    parse := fun s =>
      if s = "envelope" then .ok (envelopeOf (.str "four"))
      else if s = "four" then
        .ok (.obj [("themeSuggestion", .str "A"), ("themeDescription", .str "B"),
          ("signatureCocktail", .str "C"), ("cocktailRecipeIdea", .str "D")])
      else .error ⟨"SyntaxError", "Unexpected end of JSON input"⟩
    stringify := fun _ => "null"
    toStr := fun _ => "null" }

/-! ## Doubles used in the statements -/

/-- A number with at most 53 significant bits: `m * 2^j` with `m < 2^53`. -/
def IsDouble (a : ℚ) : Prop :=
  ∃ (m : ℕ) (j : ℤ), a = (m : ℚ) * 2 ^ j ∧ m < 2 ^ 53

/-- The double `1 - 2^-52`, the largest value a generator of 52 random bits
returns. -/
def nearOne52 : ℚ := 1 - 1 / 2 ^ 52

/-- The double `1 - 2^-53`, the largest double below one. -/
def nearOne53 : ℚ := 1 - 1 / 2 ^ 53

/-- A transport that rejects every call, with every jitter draw `1 - 2^-52`. -/
def nearOne52Env : Env :=
  { downEnv with random := fun _ => nearOne52 }

/-- A transport that rejects every call, with every jitter draw `1 - 2^-53`. -/
def nearOne53Env : Env :=
  { downEnv with random := fun _ => nearOne53 }

/-- A transport that rejects every call, with first jitter draw `1 - 2^-53` and
every later draw `0`. -/
def tieEnv : Env :=
  { downEnv with random := fun i => if i = 0 then nearOne53 else 0 }

/-! ## Lemmas on traces and on the loop -/

theorem callCount_append (xs ys : List Event) :
    callCount (xs ++ ys) = callCount xs + callCount ys := by
  induction xs with
  | nil => simp [callCount]
  | cons x xs ih => cases x <;> simp [callCount, ih]; omega

theorem delays_append (xs ys : List Event) :
    delays (xs ++ ys) = delays xs ++ delays ys := by
  induction xs with
  | nil => simp [delays]
  | cons x xs ih => cases x <;> simp [delays, ih]

theorem retryLoop_exit (env : Env) (N : Nat) (payload : Json) (attempt : Nat) (st : LoopState)
    (h : N ≤ attempt) : retryLoop env N payload attempt st = afterLoop st := by
  rw [retryLoop, if_neg (by omega)]

theorem retryLoop_ok (env : Env) (N : Nat) (payload : Json) (attempt : Nat) (st : LoopState)
    (v : Json) (h : attempt < N) (hv : tryBlock env payload (callCount st.trace) = .ok v) :
    retryLoop env N payload attempt st =
      { outcome := .ok v, trace := st.trace ++ [.fetchCall (request env payload)] } := by
  rw [retryLoop, if_pos h, hv]

theorem retryLoop_error (env : Env) (N : Nat) (payload : Json) (attempt : Nat) (st : LoopState)
    (e : JSError) (h : attempt < N) (he : tryBlock env payload (callCount st.trace) = .error e) :
    retryLoop env N payload attempt st =
      retryLoop env N payload (attempt + 1)
        (catchBlock env N attempt
          { st with trace := st.trace ++ [.fetchCall (request env payload)] } e) := by
  rw [retryLoop, if_pos h, he]

theorem callCount_failedTrace (env : Env) (N : Nat) (payload : Json) (m : Nat) :
    callCount (failedTrace env N payload m) = m := by
  induction m with
  | zero => rfl
  | succ m ih =>
    simp only [failedTrace, callCount_append, ih]
    split <;> simp [callCount]

theorem delays_failedTrace (env : Env) (N : Nat) (payload : Json) (m : Nat) (h : m + 1 ≤ N) :
    delays (failedTrace env N payload m) =
      (List.range m).map (fun i => backoffDelay i (env.random i)) := by
  induction m with
  | zero => rfl
  | succ m ih =>
    have hm : (m : Int) < (N : Int) - 1 := by omega
    simp only [failedTrace, delays_append, ih (by omega), if_pos hm, delays, List.range_succ,
      List.map_append, List.map_cons, List.map_nil]

theorem delays_failedTrace_full (env : Env) (N : Nat) (payload : Json) (h : 1 ≤ N) :
    delays (failedTrace env N payload N) =
      (List.range (N - 1)).map (fun i => backoffDelay i (env.random i)) := by
  obtain ⟨n, rfl⟩ : ∃ n, N = n + 1 := ⟨N - 1, by omega⟩
  have hn : ¬ ((n : Int) < ((n + 1 : Nat) : Int) - 1) := by omega
  simp only [failedTrace, delays_append, if_neg hn, delays, List.append_nil,
    Nat.add_sub_cancel]
  exact delays_failedTrace env (n + 1) payload n (le_refl _)

/-- Running through `m` failing iterations: the loop started at counter `0` is the
loop resumed at counter `m` with the state those iterations leave behind. -/
theorem retryLoop_failed (env : Env) (N : Nat) (payload : Json) (m : Nat) (hm : m ≤ N)
    (hfail : ∀ k, k < m → ∃ e, tryBlock env payload k = .error e) :
    retryLoop env N payload 0 { lastError := none, trace := [] } =
      retryLoop env N payload m
        { lastError := lastErrorAfter env payload m, trace := failedTrace env N payload m } := by
  induction m with
  | zero => rfl
  | succ m ih =>
    rw [ih (by omega) (fun k hk => hfail k (by omega))]
    obtain ⟨e, he⟩ := hfail m (by omega)
    have hc : callCount (failedTrace env N payload m) = m := callCount_failedTrace env N payload m
    rw [retryLoop_error env N payload m _ e (by omega) (by simpa [hc] using he)]
    congr 1
    simp only [catchBlock, failedTrace, lastErrorAfter, errorOf, he]
    by_cases hlt : (m : Int) < (N : Int) - 1
    · have hd := delays_failedTrace env N payload m (by omega)
      simp [hlt, delays_append, delays, hd]
    · simp [hlt]

theorem optChain_of_getProp (x y : Json) (key : PropKey) (h : x.getProp key = some y) :
    optChain (some x) key = some y := by
  cases x <;> simp_all [optChain, Json.getProp]

theorem extractText_of_hasText (envelope text : Json) (h : HasText envelope text) :
    extractText envelope = .ok (some text) := by
  obtain ⟨c, cs, content, p, ps, h1, h2, h3, h4⟩ := h
  have e1 : optChain (some (Json.arr (c :: cs))) (.index 0) = some c := by
    simp [optChain, Json.getProp]
  have e3 : optChain (some (Json.arr (p :: ps))) (.index 0) = some p := by
    simp [optChain, Json.getProp]
  cases envelope with
  | null => simp [Json.getProp] at h1
  | _ =>
    simp only [extractText, h1, e1, optChain_of_getProp _ _ _ h2, optChain_of_getProp _ _ _ h3,
      e3, optChain_of_getProp _ _ _ h4]

/-- The `try` block returns the parsed text of an ok response with the provider
shape. -/
theorem tryBlock_of_text (env : Env) (payload : Json) (k : Nat) (resp : Response)
    (bodyText : String) (envelope : Json) (t : String) (v : Json)
    (hfetch : env.fetch k (request env payload) = .ok resp) (hok : resp.ok = true)
    (hbody : resp.body = .ok bodyText) (henv : env.parse bodyText = .ok envelope)
    (htext : HasText envelope (.str t)) (hne : t ≠ "") (hparse : env.parse t = .ok v) :
    tryBlock env payload k = .ok v := by
  simp [tryBlock, hfetch, hok, Response.json, hbody, henv,
    extractText_of_hasText envelope _ htext, truthy, hne, JSONparse, hparse]

/-- The `try` block of call `k` only looks at what `fetch` answers to call `k`. -/
theorem tryBlock_congr (env : Env) (fetch2 : Nat → Request → Except JSError Response)
    (payload : Json) (k : Nat) (h : ∀ req, fetch2 k req = env.fetch k req) :
    tryBlock { env with fetch := fetch2 } payload k = tryBlock env payload k := by
  simp only [tryBlock, request, h, Response.json, JSONparse, statusError]

theorem failedTrace_congr (env : Env) (fetch2 : Nat → Request → Except JSError Response)
    (N : Nat) (payload : Json) (m : Nat) :
    failedTrace { env with fetch := fetch2 } N payload m = failedTrace env N payload m := by
  induction m with
  | zero => rfl
  | succ m ih => simp only [failedTrace, ih, request]

theorem optChain_none_of_getProp (x : Json) (key : PropKey) (h : x.getProp key = none) :
    optChain (some x) key = none := by
  cases x <;> simp_all [optChain, Json.getProp]

theorem extractText_of_ne_null (r : Json) (h : r ≠ .null) :
    extractText r = .ok (optChain (optChain (optChain (optChain (optChain
      (r.getProp (.named "candidates")) (.index 0)) (.named "content"))
      (.named "parts")) (.index 0)) (.named "text")) := by
  cases r <;> first | rfl | exact absurd rfl h

theorem extractText_of_missing (envelope : Json) (h : MissingText envelope) :
    extractText envelope = .ok none ∨
      (envelope = .null ∧ extractText envelope = .error (missingTextError envelope)) := by
  have e1 : ∀ c cs, optChain (some (Json.arr (c :: cs))) (.index 0) = some c := by
    intro c cs
    simp [optChain, Json.getProp]
  have e0 : optChain (some (Json.arr [])) (.index 0) = none := by
    simp [optChain, Json.getProp]
  by_cases hnull : envelope = .null
  · subst hnull
    exact Or.inr ⟨rfl, rfl⟩
  · left
    rw [extractText_of_ne_null envelope hnull]
    cases h with
    | noCandidates h1 => rw [h1]; rfl
    | emptyCandidates h1 => rw [h1, e0]; rfl
    | noContent c cs h1 h2 => rw [h1, e1, optChain_none_of_getProp _ _ h2]; rfl
    | noParts c cs content h1 h2 h3 =>
      rw [h1, e1, optChain_of_getProp _ _ _ h2, optChain_none_of_getProp _ _ h3]; rfl
    | emptyParts c cs content h1 h2 h3 =>
      rw [h1, e1, optChain_of_getProp _ _ _ h2, optChain_of_getProp _ _ _ h3, e0]; rfl
    | noText c cs content p ps h1 h2 h3 h4 =>
      rw [h1, e1, optChain_of_getProp _ _ _ h2, optChain_of_getProp _ _ _ h3, e1,
        optChain_none_of_getProp _ _ h4]

/-- The `try` block throws on an ok response whose envelope has no text. -/
theorem tryBlock_of_missing (env : Env) (payload : Json) (k : Nat) (resp : Response)
    (bodyText : String) (envelope : Json)
    (hfetch : env.fetch k (request env payload) = .ok resp) (hok : resp.ok = true)
    (hbody : resp.body = .ok bodyText) (henv : env.parse bodyText = .ok envelope)
    (hmiss : MissingText envelope) :
    tryBlock env payload k = .error (missingTextError envelope) := by
  rcases extractText_of_missing envelope hmiss with h | ⟨hnull, h⟩
  · have hm : missingTextError envelope = malformedError := by
      cases envelope <;> first | rfl | simp [extractText] at h
    simp [tryBlock, hfetch, hok, Response.json, hbody, henv, h, truthy, hm]
  · simp [tryBlock, hfetch, hok, Response.json, hbody, henv, h]

/-- The `try` block on an ok response whose text is a string that does not parse. -/
theorem tryBlock_of_bad_text (env : Env) (payload : Json) (k : Nat) (resp : Response)
    (bodyText : String) (envelope : Json) (t : String) (pe : JSError)
    (hfetch : env.fetch k (request env payload) = .ok resp) (hok : resp.ok = true)
    (hbody : resp.body = .ok bodyText) (henv : env.parse bodyText = .ok envelope)
    (htext : HasText envelope (.str t)) (hparse : env.parse t = .error pe) :
    tryBlock env payload k = .error (if t = "" then malformedError else pe) := by
  by_cases hne : t = ""
  · simp [tryBlock, hfetch, hok, Response.json, hbody, henv,
      extractText_of_hasText envelope _ htext, truthy, hne]
  · simp [tryBlock, hfetch, hok, Response.json, hbody, henv,
      extractText_of_hasText envelope _ htext, truthy, hne, JSONparse, hparse]

theorem afterLoop_outcome_ne_ok (st : LoopState) (v : Json) : (afterLoop st).outcome ≠ .ok v := by
  unfold afterLoop
  split <;> simp

theorem string_append_left_cancel (a b c : String) (h : a ++ b = a ++ c) : b = c := by
  have hd := congrArg String.data h
  simp only [String.data_append] at hd
  exact String.ext (List.append_cancel_left hd)

theorem mentions_middle (a part c : String) : Mentions (a ++ part ++ c) part :=
  ⟨a.data, c.data, by simp [String.data_append]⟩

theorem mentions_append_left (a msg part : String) (h : Mentions msg part) :
    Mentions (a ++ msg) part := by
  obtain ⟨s, t, hst⟩ := h
  exact ⟨a.data ++ s, t, by simp [String.data_append, ← hst]⟩

theorem not_mentions_of_char (msg part : String) (c : Char) (hc : c ∈ part.data)
    (hn : c ∉ msg.data) : ¬ Mentions msg part :=
  fun h => hn (h.subset hc)

/-- When the first `N` iterations all fail, with `N` at least one. -/
theorem run_all_failed (env : Env) (N : Nat) (payload : Json) (hN : 1 ≤ N)
    (hfail : ∀ k, k < N → ∃ e, tryBlock env payload k = .error e) :
    GeminiFetcherWith N env payload =
      { outcome := .error ⟨"Error", exhaustionText ++ (errorOf env payload (N - 1)).message⟩,
        trace := failedTrace env N payload N ++
          [.consoleError (some (errorOf env payload (N - 1)))] } := by
  obtain ⟨n, rfl⟩ : ∃ n, N = n + 1 := ⟨N - 1, by omega⟩
  rw [GeminiFetcherWith, retryLoop_failed env (n + 1) payload (n + 1) (le_refl _) hfail,
    retryLoop_exit _ _ _ _ _ (le_refl _)]
  simp [afterLoop, lastErrorAfter]

/-- When iterations `0 .. k-1` fail and iteration `k`, below the bound, returns `v`. -/
theorem run_first_success (env : Env) (N : Nat) (payload : Json) (k : Nat) (v : Json)
    (hk : k < N) (hfail : ∀ j, j < k → ∃ e, tryBlock env payload j = .error e)
    (hv : tryBlock env payload k = .ok v) :
    GeminiFetcherWith N env payload =
      { outcome := .ok v,
        trace := failedTrace env N payload k ++ [.fetchCall (request env payload)] } := by
  rw [GeminiFetcherWith, retryLoop_failed env N payload k (by omega) hfail]
  exact retryLoop_ok env N payload k _ v hk (by simpa [callCount_failedTrace] using hv)

/-- Every run is of one of two kinds: some iteration below the bound is the first
whose `try` block returns, or all iterations below the bound fail. -/
theorem run_cases (env : Env) (N : Nat) (payload : Json) :
    (∃ k v, k < N ∧ (∀ j, j < k → ∃ e, tryBlock env payload j = .error e) ∧
      tryBlock env payload k = .ok v ∧
      GeminiFetcherWith N env payload =
        { outcome := .ok v,
          trace := failedTrace env N payload k ++ [.fetchCall (request env payload)] }) ∨
    ((∀ k, k < N → ∃ e, tryBlock env payload k = .error e) ∧
      GeminiFetcherWith N env payload =
        afterLoop { lastError := lastErrorAfter env payload N,
                    trace := failedTrace env N payload N }) := by
  classical
  by_cases hex : ∃ k, k < N ∧ ∃ v, tryBlock env payload k = .ok v
  · left
    have hspec := Nat.find_spec hex
    obtain ⟨hlt, v, hv⟩ := hspec
    have hfail : ∀ j, j < Nat.find hex → ∃ e, tryBlock env payload j = .error e := by
      intro j hj
      have hmin := Nat.find_min hex hj
      cases hres : tryBlock env payload j with
      | error e => exact ⟨e, rfl⟩
      | ok w => exact absurd ⟨by omega, w, hres⟩ hmin
    exact ⟨Nat.find hex, v, hlt, hfail, hv,
      run_first_success env N payload _ v hlt hfail hv⟩
  · right
    have hfail : ∀ k, k < N → ∃ e, tryBlock env payload k = .error e := by
      intro k hk
      cases hres : tryBlock env payload k with
      | error e => exact ⟨e, rfl⟩
      | ok w => exact absurd ⟨k, hk, w, hres⟩ hex
    refine ⟨hfail, ?_⟩
    rw [GeminiFetcherWith, retryLoop_failed env N payload N (le_refl _) hfail,
      retryLoop_exit _ _ _ _ _ (le_refl _)]

theorem delays_afterLoop (st : LoopState) : delays (afterLoop st).trace = delays st.trace := by
  unfold afterLoop
  split <;> simp [delays_append, delays]

theorem callCount_afterLoop (st : LoopState) :
    callCount (afterLoop st).trace = callCount st.trace := by
  unfold afterLoop
  split <;> simp [callCount_append, callCount]

/-- The waits of any run are the backoff delays of iterations `0 .. m-1` for some
`m` below the bound, the `i`-th computed from the `i`-th random draw. -/
theorem delays_run (env : Env) (N : Nat) (payload : Json) :
    ∃ m, m ≤ N - 1 ∧ delays (GeminiFetcherWith N env payload).trace =
      (List.range m).map (fun i => backoffDelay i (env.random i)) := by
  rcases run_cases env N payload with ⟨k, v, hk, -, -, hrun⟩ | ⟨-, hrun⟩
  · refine ⟨k, by omega, ?_⟩
    rw [hrun]
    simp [delays_append, delays, delays_failedTrace env N payload k (by omega)]
  · rw [hrun, delays_afterLoop]
    rcases Nat.eq_zero_or_pos N with h0 | hpos
    · subst h0
      exact ⟨0, le_refl _, rfl⟩
    · exact ⟨N - 1, le_refl _, delays_failedTrace_full env N payload hpos⟩

/-- The trace of `m` failed iterations that are all followed by a wait. -/
theorem failedTrace_eq (env : Env) (N : Nat) (payload : Json) (m : Nat) (h : m + 1 ≤ N) :
    failedTrace env N payload m =
      (List.range m).flatMap (fun i =>
        [Event.fetchCall (request env payload), Event.sleep (backoffDelay i (env.random i))]) := by
  induction m with
  | zero => rfl
  | succ m ih =>
    have hm : (m : Int) < (N : Int) - 1 := by omega
    simp [failedTrace, ih (by omega), if_pos hm, List.range_succ, List.flatMap_append]

theorem failedTrace_full (env : Env) (N : Nat) (payload : Json) (h : 1 ≤ N) :
    failedTrace env N payload N =
      (List.range (N - 1)).flatMap (fun i =>
        [Event.fetchCall (request env payload), Event.sleep (backoffDelay i (env.random i))])
      ++ [Event.fetchCall (request env payload)] := by
  obtain ⟨n, rfl⟩ : ∃ n, N = n + 1 := ⟨N - 1, by omega⟩
  have hn : ¬ ((n : Int) < ((n + 1 : Nat) : Int) - 1) := by omega
  simp only [failedTrace, if_neg hn, Nat.add_sub_cancel]
  rw [failedTrace_eq env (n + 1) payload n (le_refl _)]

/-- What follows a failure of iteration `k` that comes after `k` failed iterations:
the error is in `lastError` when the loop test is next evaluated, a further call is
made when `k + 1` is below the bound, the exhaustion error carries the message when
it is not, and a returned value can only come from a later iteration. -/
theorem run_after_failure (env : Env) (N : Nat) (payload : Json) (k : Nat) (e : JSError)
    (hk : k < N) (hfail : ∀ j, j < k → ∃ e, tryBlock env payload j = .error e)
    (he : tryBlock env payload k = .error e) :
    GeminiFetcherWith N env payload =
      retryLoop env N payload (k + 1)
        { lastError := some e, trace := failedTrace env N payload (k + 1) } ∧
    (k + 1 < N → k + 2 ≤ callCount (GeminiFetcherWith N env payload).trace) ∧
    (k + 1 = N → (GeminiFetcherWith N env payload).outcome =
      .error ⟨"Error", exhaustionText ++ e.message⟩) ∧
    (∀ v, (GeminiFetcherWith N env payload).outcome = .ok v →
      ∃ j, k < j ∧ j < N ∧ tryBlock env payload j = .ok v) := by
  have hfail2 : ∀ j, j < k + 1 → ∃ e, tryBlock env payload j = .error e := by
    intro j hj
    rcases Nat.lt_succ_iff_lt_or_eq.mp hj with h | h
    · exact hfail j h
    · exact ⟨e, h ▸ he⟩
  have hlast : lastErrorAfter env payload (k + 1) = some e := by
    simp [lastErrorAfter, errorOf, he]
  have hrun := retryLoop_failed env N payload (k + 1) (by omega) hfail2
  rw [hlast] at hrun
  have hlate : ∀ k2 v, tryBlock env payload k2 = .ok v → k < k2 := by
    intro k2 v hv
    by_contra hle
    obtain ⟨e2, he2⟩ := hfail2 k2 (by omega)
    rw [he2] at hv
    cases hv
  refine ⟨hrun, ?_, ?_, ?_⟩
  · intro hlt
    rcases run_cases env N payload with ⟨k2, v, -, -, hv, hr⟩ | ⟨-, hr⟩
    · have := hlate k2 v hv
      rw [hr]
      simp only [callCount_append, callCount_failedTrace, callCount]
      omega
    · rw [hr, callCount_afterLoop, callCount_failedTrace]
      omega
  · intro hlast
    subst hlast
    rw [GeminiFetcherWith, hrun, retryLoop_exit _ _ _ _ _ (le_refl _)]
    rfl
  · intro v hv
    rcases run_cases env N payload with ⟨k2, v2, hk2, -, hv2, hr⟩ | ⟨-, hr⟩
    · rw [hr] at hv
      simp only [Except.ok.injEq] at hv
      subst hv
      exact ⟨k2, hlate k2 v2 hv2, hk2, hv2⟩
    · rw [hr] at hv
      exact absurd hv (afterLoop_outcome_ne_ok _ v)

theorem callCount_catchBlock (env : Env) (N attempt : Nat) (st : LoopState) (e : JSError) :
    callCount (catchBlock env N attempt st e).trace = callCount st.trace := by
  unfold catchBlock
  split <;> simp [callCount_append, callCount]

/-- The loop resumed at counter `a` makes at most `N - a` further calls. -/
theorem callCount_retryLoop_le (env : Env) (N : Nat) (payload : Json) :
    ∀ (d a : Nat) (st : LoopState), N - a = d →
      callCount (retryLoop env N payload a st).trace ≤ callCount st.trace + (N - a) := by
  intro d
  induction d with
  | zero =>
    intro a st hd
    rw [retryLoop_exit env N payload a st (by omega), callCount_afterLoop]
    omega
  | succ d ih =>
    intro a st hd
    cases hres : tryBlock env payload (callCount st.trace) with
    | ok v =>
      rw [retryLoop_ok env N payload a st v (by omega) hres]
      simp only [callCount_append, callCount]
      omega
    | error e =>
      rw [retryLoop_error env N payload a st e (by omega) hres]
      have h := ih (a + 1) (catchBlock env N a
        { st with trace := st.trace ++ [.fetchCall (request env payload)] } e) (by omega)
      rw [callCount_catchBlock] at h
      simp only [callCount_append, callCount] at h
      omega

/-! ## Lemmas on the rounding of doubles -/

theorem roundHalfEven_ge (q : ℚ) (n : ℤ) (h : (n : ℚ) ≤ q) : n ≤ roundHalfEven q := by
  have hf : n ≤ Int.floor q := Int.le_floor.mpr h
  unfold roundHalfEven
  split_ifs <;> omega

theorem roundHalfEven_le (q : ℚ) (n : ℤ) (h : q ≤ (n : ℚ)) : roundHalfEven q ≤ n := by
  rcases eq_or_lt_of_le h with heq | hlt
  · subst heq
    simp [roundHalfEven]
  · have hf : Int.floor q < n := Int.floor_lt.mpr hlt
    unfold roundHalfEven
    split_ifs <;> omega

theorem roundHalfEven_intCast (n : ℤ) : roundHalfEven (n : ℚ) = n :=
  le_antisymm (roundHalfEven_le _ n le_rfl) (roundHalfEven_ge _ n le_rfl)

theorem roundHalfEven_eq_of_near (q : ℚ) (k : ℤ) (h1 : (k : ℚ) - 1 / 2 < q)
    (h2 : q < (k : ℚ) + 1 / 2) : roundHalfEven q = k := by
  rcases le_or_lt (k : ℚ) q with hk | hk
  · have hf : Int.floor q = k := Int.floor_eq_iff.mpr ⟨hk, by linarith⟩
    unfold roundHalfEven
    rw [hf, if_pos (by linarith)]
  · have hf : Int.floor q = k - 1 := Int.floor_eq_iff.mpr ⟨by push_cast; linarith, by push_cast; linarith⟩
    unfold roundHalfEven
    rw [hf, if_neg (by push_cast; linarith), if_pos (by push_cast; linarith)]
    omega

theorem roundHalfEven_tie (q : ℚ) (k : ℤ) (h : q = (k : ℚ) + 1 / 2) :
    roundHalfEven q = if k % 2 = 0 then k else k + 1 := by
  have hf : Int.floor q = k := Int.floor_eq_iff.mpr ⟨by linarith, by linarith⟩
  unfold roundHalfEven
  rw [hf, if_neg (by linarith), if_neg (by linarith)]

theorem two_zpow_pos (z : ℤ) : (0 : ℚ) < 2 ^ z := zpow_pos (by norm_num) z

theorem log_two_spec (x : ℚ) (hx : 0 < x) :
    (2 : ℚ) ^ Int.log 2 x ≤ x ∧ x < (2 : ℚ) ^ (Int.log 2 x + 1) := by
  have h1 := Int.zpow_log_le_self (b := 2) (r := x) (by norm_num) hx
  have h2 := Int.lt_zpow_succ_log_self (b := 2) (by norm_num) x
  simp only [Nat.cast_ofNat] at h1 h2
  exact ⟨h1, h2⟩

theorem log_two_eq (x : ℚ) (e : ℤ) (h1 : (2 : ℚ) ^ e ≤ x) (h2 : x < (2 : ℚ) ^ (e + 1)) :
    Int.log 2 x = e := by
  have hx : 0 < x := lt_of_lt_of_le (two_zpow_pos e) h1
  have ha : e ≤ Int.log 2 x := by
    have := (Int.zpow_le_iff_le_log (b := 2) (R := ℚ) (by norm_num) hx (x := e)).mp
      (by simpa using h1)
    exact this
  have hb : Int.log 2 x < e + 1 := by
    have := (Int.lt_zpow_iff_log_lt (b := 2) (R := ℚ) (by norm_num) hx (x := e + 1)).mp
      (by simpa using h2)
    exact this
  omega


theorem roundDouble_pos_eq (x : ℚ) (hx : 0 < x) :
    roundDouble x =
      (roundHalfEven (x * 2 ^ (52 - Int.log 2 x)) : ℚ) / 2 ^ (52 - Int.log 2 x) := by
  rw [roundDouble, if_pos hx]

theorem two_zpow_le_roundDouble (x : ℚ) (hx : 0 < x) :
    (2 : ℚ) ^ Int.log 2 x ≤ roundDouble x := by
  have hs := two_zpow_pos (52 - Int.log 2 x)
  have hlog := (log_two_spec x hx).1
  rw [roundDouble_pos_eq x hx, le_div_iff₀ hs, ← zpow_add₀ (by norm_num : (2 : ℚ) ≠ 0)]
  have h52 : Int.log 2 x + (52 - Int.log 2 x) = ((52 : ℕ) : ℤ) := by omega
  rw [h52, zpow_natCast]
  have hge : (((2 ^ 52 : ℕ) : ℤ) : ℚ) ≤ x * 2 ^ (52 - Int.log 2 x) := by
    have h1 : (2 : ℚ) ^ Int.log 2 x * 2 ^ (52 - Int.log 2 x) ≤ x * 2 ^ (52 - Int.log 2 x) :=
      mul_le_mul_of_nonneg_right hlog hs.le
    rw [← zpow_add₀ (by norm_num : (2 : ℚ) ≠ 0), h52, zpow_natCast] at h1
    push_cast
    exact h1
  have := roundHalfEven_ge _ _ hge
  have hc : (((2 ^ 52 : ℕ) : ℤ) : ℚ) ≤ (roundHalfEven (x * 2 ^ (52 - Int.log 2 x)) : ℚ) := by
    exact_mod_cast this
  push_cast at hc
  exact hc

/-- In the scale of `x`, a double is an integer or lies below the binade of `x`. -/
theorem isDouble_scaled (a x : ℚ) (ha : IsDouble a) :
    (∃ n : ℤ, a * 2 ^ (52 - Int.log 2 x) = (n : ℚ)) ∨ a < 2 ^ Int.log 2 x := by
  obtain ⟨m, j, rfl, hm⟩ := ha
  rcases le_or_lt 0 (j + (52 - Int.log 2 x)) with hp | hp
  · left
    obtain ⟨p, hp2⟩ := Int.eq_ofNat_of_zero_le hp
    refine ⟨(m : ℤ) * 2 ^ p, ?_⟩
    rw [mul_assoc, ← zpow_add₀ (by norm_num : (2 : ℚ) ≠ 0), hp2, zpow_natCast]
    push_cast
    rfl
  · right
    have hm2 : (m : ℚ) < 2 ^ (53 : ℕ) := by exact_mod_cast hm
    have hj := two_zpow_pos j
    calc (m : ℚ) * 2 ^ j < 2 ^ (53 : ℕ) * 2 ^ j := mul_lt_mul_of_pos_right hm2 hj
      _ = 2 ^ ((53 : ℕ) + j : ℤ) := by
        rw [zpow_add₀ (by norm_num : (2 : ℚ) ≠ 0), zpow_natCast]
      _ ≤ 2 ^ Int.log 2 x := zpow_le_zpow_right₀ (by norm_num) (by omega)

theorem roundDouble_ge (a x : ℚ) (ha : IsDouble a) (hx : 0 < x) (h : a ≤ x) :
    a ≤ roundDouble x := by
  have hs := two_zpow_pos (52 - Int.log 2 x)
  rcases isDouble_scaled a x ha with ⟨n, hn⟩ | hlt
  · rw [roundDouble_pos_eq x hx, le_div_iff₀ hs, hn]
    have hle : (n : ℚ) ≤ x * 2 ^ (52 - Int.log 2 x) := by
      rw [← hn]
      exact mul_le_mul_of_nonneg_right h hs.le
    exact_mod_cast roundHalfEven_ge _ n hle
  · exact le_trans hlt.le (two_zpow_le_roundDouble x hx)

theorem roundDouble_le (a x : ℚ) (ha : IsDouble a) (hx : 0 < x) (h : x ≤ a) :
    roundDouble x ≤ a := by
  have hs := two_zpow_pos (52 - Int.log 2 x)
  rcases isDouble_scaled a x ha with ⟨n, hn⟩ | hlt
  · rw [roundDouble_pos_eq x hx, div_le_iff₀ hs, hn]
    have hle : x * 2 ^ (52 - Int.log 2 x) ≤ (n : ℚ) := by
      rw [← hn]
      exact mul_le_mul_of_nonneg_right h hs.le
    exact_mod_cast roundHalfEven_le _ n hle
  · have := (log_two_spec x hx).1
    linarith

theorem roundDouble_zero : roundDouble 0 = 0 := by
  simp [roundDouble]

theorem isDouble_zero : IsDouble 0 := ⟨0, 0, by simp, by norm_num⟩

theorem isDouble_natCast (n : ℕ) (h : n < 2 ^ 53) : IsDouble (n : ℚ) :=
  ⟨n, 0, by simp, h⟩

theorem isDouble_pow_mul (i : ℕ) : IsDouble ((2 : ℚ) ^ i * 1000) :=
  ⟨1000, i, by rw [zpow_natCast]; push_cast; ring, by norm_num⟩

theorem roundDouble_nonneg (x : ℚ) (h : 0 ≤ x) : 0 ≤ roundDouble x := by
  rcases eq_or_lt_of_le h with h0 | hpos
  · rw [← h0, roundDouble_zero]
  · exact roundDouble_ge 0 x isDouble_zero hpos h

theorem roundDouble_fix (a : ℚ) (ha : IsDouble a) (h : 0 ≤ a) : roundDouble a = a := by
  rcases eq_or_lt_of_le h with h0 | hpos
  · rw [← h0, roundDouble_zero]
  · exact le_antisymm (roundDouble_le a a ha hpos le_rfl) (roundDouble_ge a a ha hpos le_rfl)

/-- Evaluation of `roundDouble` at a number whose scaling by `2^p` lies in
`[2^52, 2^53)`. -/
theorem roundDouble_eval (x : ℚ) (p : ℕ) (h1 : (2 : ℚ) ^ 52 ≤ x * 2 ^ p)
    (h2 : x * 2 ^ p < (2 : ℚ) ^ 53) :
    roundDouble x = (roundHalfEven (x * 2 ^ p) : ℚ) / 2 ^ p := by
  have hpp : (0 : ℚ) < 2 ^ p := by positivity
  have hx : 0 < x := by
    by_contra hneg
    have : x * 2 ^ p ≤ 0 := mul_nonpos_of_nonpos_of_nonneg (not_lt.mp hneg) hpp.le
    have : (0 : ℚ) < 2 ^ 52 := by positivity
    linarith
  have hlog : Int.log 2 x = 52 - (p : ℤ) := by
    apply log_two_eq
    · rw [zpow_sub₀ (by norm_num : (2 : ℚ) ≠ 0), zpow_natCast, div_le_iff₀ hpp]
      exact_mod_cast h1
    · have h53 : (52 : ℤ) - (p : ℤ) + 1 = (53 : ℤ) - (p : ℤ) := by ring
      rw [h53, zpow_sub₀ (by norm_num : (2 : ℚ) ≠ 0), zpow_natCast, lt_div_iff₀ hpp]
      exact_mod_cast h2
  have hsc : (52 : ℤ) - Int.log 2 x = (p : ℤ) := by omega
  rw [roundDouble_pos_eq x hx, hsc, zpow_natCast]


theorem roundDouble_pow_mul (i : ℕ) : roundDouble ((2 : ℚ) ^ i * 1000) = 2 ^ i * 1000 :=
  roundDouble_fix _ (isDouble_pow_mul i) (by positivity)

theorem roundDouble_jitter_le (r : ℚ) (h0 : 0 ≤ r) (h1 : r ≤ 1) :
    0 ≤ roundDouble (r * 1000) ∧ roundDouble (r * 1000) ≤ 1000 := by
  refine ⟨roundDouble_nonneg _ (by linarith), ?_⟩
  rcases eq_or_lt_of_le h0 with hz | hpos
  · rw [← hz, zero_mul, roundDouble_zero]
    norm_num
  · have h := roundDouble_le ((1000 : ℕ) : ℚ) (r * 1000) (isDouble_natCast 1000 (by norm_num))
      (by linarith) (by push_cast; linarith)
    exact_mod_cast h

theorem backoffDelay_ge (i : ℕ) (r : ℚ) (h0 : 0 ≤ r) :
    (2 : ℚ) ^ i * 1000 ≤ backoffDelay i r := by
  have hj := roundDouble_nonneg (r * 1000) (by linarith)
  have hp : (0 : ℚ) < 2 ^ i * 1000 := by positivity
  rw [backoffDelay, roundDouble_pow_mul]
  exact roundDouble_ge _ _ (isDouble_pow_mul i) (by linarith) (by linarith)

theorem backoffDelay_le_double (i : ℕ) (r : ℚ) (h0 : 0 ≤ r) (h1 : r ≤ 1) :
    backoffDelay i r ≤ (2 : ℚ) ^ (i + 1) * 1000 := by
  have hj := roundDouble_jitter_le r h0 h1
  have hp : (1 : ℚ) ≤ 2 ^ i := one_le_pow₀ (by norm_num)
  rw [backoffDelay, roundDouble_pow_mul]
  refine roundDouble_le _ _ (isDouble_pow_mul (i + 1)) (by nlinarith) ?_
  rw [pow_succ]
  nlinarith

theorem backoffDelay_le (i : ℕ) (r : ℚ) (hi : i ≤ 43) (h0 : 0 ≤ r) (h1 : r ≤ 1) :
    backoffDelay i r ≤ (2 : ℚ) ^ i * 1000 + 1000 := by
  have hj := roundDouble_jitter_le r h0 h1
  have hp : (1 : ℚ) ≤ 2 ^ i := one_le_pow₀ (by norm_num)
  have hbound : 2 ^ i * 1000 + 1000 < 2 ^ 53 := by
    have : 2 ^ i ≤ 2 ^ 43 := Nat.pow_le_pow_right (by norm_num) hi
    omega
  have hd := isDouble_natCast (2 ^ i * 1000 + 1000) hbound
  rw [backoffDelay, roundDouble_pow_mul]
  have h := roundDouble_le _ (2 ^ i * 1000 + roundDouble (r * 1000)) hd (by nlinarith)
    (by push_cast; linarith)
  push_cast at h
  exact h

/-- When the jitter term and the sum are whole numbers below `2^53`, no operation
of line 57 rounds. -/
theorem backoffDelay_exact (i : ℕ) (r : ℚ) (n : ℕ) (hn : r * 1000 = n)
    (hb : 2 ^ i * 1000 + n < 2 ^ 53) : backoffDelay i r = 2 ^ i * 1000 + n := by
  have h1 : roundDouble (r * 1000) = n := by
    rw [hn]
    exact roundDouble_fix _ (isDouble_natCast n (by omega)) (by positivity)
  rw [backoffDelay, roundDouble_pow_mul, h1]
  have h := roundDouble_fix _ (isDouble_natCast (2 ^ i * 1000 + n) hb) (by positivity)
  push_cast at h
  exact h

theorem roundDouble_jitter52 : roundDouble (nearOne52 * 1000) = 1000 - 1 / 2 ^ 42 := by
  rw [roundDouble_eval _ 43 (by norm_num [nearOne52]) (by norm_num [nearOne52]),
    roundHalfEven_eq_of_near _ (1000 * 2 ^ 43 - 2) (by norm_num [nearOne52])
      (by norm_num [nearOne52])]
  norm_num

theorem roundDouble_jitter53 : roundDouble (nearOne53 * 1000) = 1000 - 1 / 2 ^ 43 := by
  rw [roundDouble_eval _ 43 (by norm_num [nearOne53]) (by norm_num [nearOne53]),
    roundHalfEven_eq_of_near _ (1000 * 2 ^ 43 - 1) (by norm_num [nearOne53])
      (by norm_num [nearOne53])]
  norm_num

theorem backoffDelay_one_nearOne52 : backoffDelay 1 nearOne52 = 3000 := by
  rw [backoffDelay, roundDouble_pow_mul, roundDouble_jitter52,
    roundDouble_eval _ 41 (by norm_num) (by norm_num),
    roundHalfEven_tie _ (3000 * 2 ^ 41 - 1) (by norm_num)]
  norm_num

theorem backoffDelay_zero_nearOne53 : backoffDelay 0 nearOne53 = 2000 := by
  rw [backoffDelay, roundDouble_pow_mul, roundDouble_jitter53,
    roundDouble_eval _ 42 (by norm_num) (by norm_num),
    roundHalfEven_tie _ (2000 * 2 ^ 42 - 1) (by norm_num)]
  norm_num

theorem backoffDelay_one_nearOne53 : backoffDelay 1 nearOne53 = 3000 := by
  rw [backoffDelay, roundDouble_pow_mul, roundDouble_jitter53,
    roundDouble_eval _ 41 (by norm_num) (by norm_num),
    roundHalfEven_eq_of_near _ (3000 * 2 ^ 41) (by norm_num) (by norm_num)]
  norm_num

theorem backoffDelay_two_nearOne53 : backoffDelay 2 nearOne53 = 5000 := by
  rw [backoffDelay, roundDouble_pow_mul, roundDouble_jitter53,
    roundDouble_eval _ 40 (by norm_num) (by norm_num),
    roundHalfEven_eq_of_near _ (5000 * 2 ^ 40) (by norm_num) (by norm_num)]
  norm_num

theorem backoffDelay_three_nearOne53 : backoffDelay 3 nearOne53 = 9000 := by
  rw [backoffDelay, roundDouble_pow_mul, roundDouble_jitter53,
    roundDouble_eval _ 39 (by norm_num) (by norm_num),
    roundHalfEven_eq_of_near _ (9000 * 2 ^ 39) (by norm_num) (by norm_num)]
  norm_num

theorem backoffDelay_zero_nearOne52 : backoffDelay 0 nearOne52 = 2000 - 1 / 2 ^ 42 := by
  rw [backoffDelay, roundDouble_pow_mul, roundDouble_jitter52,
    roundDouble_eval _ 42 (by norm_num) (by norm_num),
    roundHalfEven_eq_of_near _ (2000 * 2 ^ 42 - 1) (by norm_num) (by norm_num)]
  norm_num

theorem backoffDelay_two_nearOne52 : backoffDelay 2 nearOne52 = 5000 := by
  rw [backoffDelay, roundDouble_pow_mul, roundDouble_jitter52,
    roundDouble_eval _ 40 (by norm_num) (by norm_num),
    roundHalfEven_eq_of_near _ (5000 * 2 ^ 40) (by norm_num) (by norm_num)]
  norm_num

theorem backoffDelay_three_nearOne52 : backoffDelay 3 nearOne52 = 9000 := by
  rw [backoffDelay, roundDouble_pow_mul, roundDouble_jitter52,
    roundDouble_eval _ 39 (by norm_num) (by norm_num),
    roundHalfEven_eq_of_near _ (9000 * 2 ^ 39) (by norm_num) (by norm_num)]
  norm_num


/-- The delay for a jitter draw of one half, as drawn in the sample transports. -/
theorem backoffDelay_of_half (i : ℕ) (r : ℚ) (hi : i ≤ 3) (hr : r = 1 / 2) :
    backoffDelay i r = 2 ^ i * 1000 + 500 := by
  subst hr
  have h := backoffDelay_exact i (1 / 2) 500 (by norm_num)
    (by interval_cases i <;> norm_num)
  rw [h]
  norm_num

/-! ## Lemmas on backoff delays -/

theorem isDouble_nearOne52 : IsDouble nearOne52 :=
  ⟨2 ^ 52 - 1, -52, by norm_num [nearOne52], by norm_num⟩

theorem isDouble_nearOne53 : IsDouble nearOne53 :=
  ⟨2 ^ 53 - 1, -53, by norm_num [nearOne53], by norm_num⟩

/-- A later delay is never smaller than an earlier one. -/
theorem backoffDelay_mono (i j : Nat) (r t : ℚ) (hij : i < j) (hr0 : 0 ≤ r) (hr1 : r ≤ 1)
    (ht : 0 ≤ t) : backoffDelay i r ≤ backoffDelay j t := by
  have h1 := backoffDelay_le_double i r hr0 hr1
  have h2 := backoffDelay_ge j t ht
  have h3 : (2 : ℚ) ^ (i + 1) ≤ 2 ^ j := pow_le_pow_right₀ (by norm_num) hij
  linarith

/-- From index one on, a later delay is greater than an earlier one. -/
theorem backoffDelay_strict (i j : Nat) (r t : ℚ) (hi1 : 1 ≤ i) (hi : i ≤ 43) (hij : i < j)
    (hr0 : 0 ≤ r) (hr1 : r ≤ 1) (ht : 0 ≤ t) : backoffDelay i r < backoffDelay j t := by
  have h1 := backoffDelay_le i r hi hr0 hr1
  have h2 := backoffDelay_ge j t ht
  have h3 : (2 : ℚ) ^ (i + 1) ≤ 2 ^ j := pow_le_pow_right₀ (by norm_num) hij
  have h4 : (2 : ℚ) ^ 1 ≤ 2 ^ i := pow_le_pow_right₀ (by norm_num) hi1
  rw [pow_succ] at h3
  rw [pow_one] at h4
  linarith

theorem sum_backoff_ge (r : Nat → ℚ) (hr : ∀ i, 0 ≤ r i) (m : Nat) :
    ((2 : ℚ) ^ m - 1) * 1000 ≤ ((List.range m).map (fun i => backoffDelay i (r i))).sum := by
  induction m with
  | zero => simp
  | succ m ih =>
    have h := backoffDelay_ge m (r m) (hr m)
    simp only [List.range_succ, List.map_append, List.map_cons, List.map_nil, List.sum_append,
      List.sum_cons, List.sum_nil, pow_succ] at ih ⊢
    linarith

/-- The sum of four numbers lying in the four closed intervals of the waits. -/
theorem sum_four_bounds (x0 x1 x2 x3 : ℚ) (h0 : 1000 ≤ x0 ∧ x0 ≤ 2000)
    (h1 : 2000 ≤ x1 ∧ x1 ≤ 3000) (h2 : 4000 ≤ x2 ∧ x2 ≤ 5000) (h3 : 8000 ≤ x3 ∧ x3 ≤ 9000) :
    15000 ≤ [x0, x1, x2, x3].sum ∧ [x0, x1, x2, x3].sum ≤ 19000 := by
  simp only [List.sum_cons, List.sum_nil]
  constructor <;> linarith

/-- The waits of a run in which all `N` iterations fail. -/
theorem delays_all_failed (env : Env) (N : Nat) (payload : Json) (hN : 1 ≤ N)
    (hfail : ∀ k, k < N → ∃ e, tryBlock env payload k = .error e) :
    delays (GeminiFetcherWith N env payload).trace =
      (List.range (N - 1)).map (fun i => backoffDelay i (env.random i)) := by
  rw [run_all_failed env N payload hN hfail]
  simp only [delays_append, delays, List.append_nil,
    delays_failedTrace_full env N payload hN]

/-- The waits of a run of the fetcher of the code in which all five iterations
fail. -/
theorem delays_all_failed_five (env : Env) (payload : Json)
    (hfail : ∀ k, k < MAX_RETRIES → ∃ e, tryBlock env payload k = .error e) :
    delays (GeminiFetcher env payload).trace =
      [backoffDelay 0 (env.random 0), backoffDelay 1 (env.random 1),
       backoffDelay 2 (env.random 2), backoffDelay 3 (env.random 3)] := by
  rw [GeminiFetcher, delays_all_failed env MAX_RETRIES payload (by decide) hfail]
  rfl

/-- The four waits when every call is rejected and every draw is one half. -/
theorem delays_downEnv_five :
    delays (GeminiFetcher downEnv Json.null).trace = [1500, 2500, 4500, 8500] := by
  rw [delays_all_failed_five downEnv Json.null (fun _ _ => ⟨_, rfl⟩),
    backoffDelay_of_half 0 (downEnv.random 0) (by norm_num) rfl,
    backoffDelay_of_half 1 (downEnv.random 1) (by norm_num) rfl,
    backoffDelay_of_half 2 (downEnv.random 2) (by norm_num) rfl,
    backoffDelay_of_half 3 (downEnv.random 3) (by norm_num) rfl]
  norm_num

/-- The four waits when every call is rejected and every draw is `1 - 2^-52`. -/
theorem delays_nearOne52Env_five :
    delays (GeminiFetcher nearOne52Env Json.null).trace =
      [2000 - 1 / 2 ^ 42, 3000, 5000, 9000] := by
  rw [delays_all_failed_five nearOne52Env Json.null (fun _ _ => ⟨_, rfl⟩)]
  have h0 : backoffDelay 0 (nearOne52Env.random 0) = 2000 - 1 / 2 ^ 42 :=
    backoffDelay_zero_nearOne52
  have h1 : backoffDelay 1 (nearOne52Env.random 1) = 3000 := backoffDelay_one_nearOne52
  have h2 : backoffDelay 2 (nearOne52Env.random 2) = 5000 := backoffDelay_two_nearOne52
  have h3 : backoffDelay 3 (nearOne52Env.random 3) = 9000 := backoffDelay_three_nearOne52
  rw [h0, h1, h2, h3]

/-- The four waits when every call is rejected and every draw is `1 - 2^-53`. -/
theorem delays_nearOne53Env_five :
    delays (GeminiFetcher nearOne53Env Json.null).trace = [2000, 3000, 5000, 9000] := by
  rw [delays_all_failed_five nearOne53Env Json.null (fun _ _ => ⟨_, rfl⟩)]
  have h0 : backoffDelay 0 (nearOne53Env.random 0) = 2000 := backoffDelay_zero_nearOne53
  have h1 : backoffDelay 1 (nearOne53Env.random 1) = 3000 := backoffDelay_one_nearOne53
  have h2 : backoffDelay 2 (nearOne53Env.random 2) = 5000 := backoffDelay_two_nearOne53
  have h3 : backoffDelay 3 (nearOne53Env.random 3) = 9000 := backoffDelay_three_nearOne53
  rw [h0, h1, h2, h3]

/-- The four waits when every call is rejected, the first draw is `1 - 2^-53` and
the later draws are `0`. -/
theorem delays_tieEnv_five :
    delays (GeminiFetcher tieEnv Json.null).trace = [2000, 2000, 4000, 8000] := by
  rw [delays_all_failed_five tieEnv Json.null (fun _ _ => ⟨_, rfl⟩)]
  have h0 : backoffDelay 0 (tieEnv.random 0) = 2000 := backoffDelay_zero_nearOne53
  have h1 : backoffDelay 1 (tieEnv.random 1) = 2000 := by
    rw [show tieEnv.random 1 = 0 from rfl, backoffDelay_exact 1 0 0 (by norm_num) (by norm_num)]
    norm_num
  have h2 : backoffDelay 2 (tieEnv.random 2) = 4000 := by
    rw [show tieEnv.random 2 = 0 from rfl, backoffDelay_exact 2 0 0 (by norm_num) (by norm_num)]
    norm_num
  have h3 : backoffDelay 3 (tieEnv.random 3) = 8000 := by
    rw [show tieEnv.random 3 = 0 from rfl, backoffDelay_exact 3 0 0 (by norm_num) (by norm_num)]
    norm_num
  rw [h0, h1, h2, h3]

/-! ## C1 -/

/-- C1. For every retry bound `N` of at least one (in particular for each of 1..5)
and every environment in which the `try` block of each of the first `N` calls
throws, the fetcher makes exactly `N` network calls and then throws the exhaustion
error, whose message ends with the message of the error of the last call; it does
not return a value. -/
theorem C1_all_fail_exactly_N_calls (N : Nat) (env : Env) (payload : Json) (hN : 1 ≤ N)
    (hfail : ∀ k, k < N → ∃ e, tryBlock env payload k = .error e) :
    callCount (GeminiFetcherWith N env payload).trace = N ∧
    (GeminiFetcherWith N env payload).outcome =
      .error ⟨"Error", exhaustionText ++ (errorOf env payload (N - 1)).message⟩ ∧
    ∀ v, (GeminiFetcherWith N env payload).outcome ≠ .ok v := by
  rw [run_all_failed env N payload hN hfail]
  refine ⟨?_, rfl, ?_⟩
  · simp [callCount_append, callCount_failedTrace, callCount]
  · intro v h
    cases h

/-- C1 at the bound of the code, with a transport that rejects every call. -/
theorem C1_all_fail_exactly_N_calls_witness :
    1 ≤ MAX_RETRIES ∧
    (∀ k, k < MAX_RETRIES → ∃ e, tryBlock downEnv Json.null k = .error e) ∧
    callCount (GeminiFetcher downEnv Json.null).trace = 5 ∧
    (GeminiFetcher downEnv Json.null).outcome =
      .error ⟨"Error", exhaustionText ++ "Failed to fetch"⟩ :=
  have h := C1_all_fail_exactly_N_calls MAX_RETRIES downEnv Json.null (by decide)
    (fun _ _ => ⟨_, rfl⟩)
  ⟨by decide, fun _ _ => ⟨_, rfl⟩, h.1, h.2.1⟩

/-! ## C2 -/

/-- C2. For every `k` with `1 ≤ k ≤ N`: if the `try` blocks of calls `1 .. k-1`
throw and call `k` is answered with an ok response whose body parses to an envelope
of the provider shape whose text `t` parses to `v`, then the fetcher returns `v`,
makes exactly `k` network calls, and its whole run is the same for every transport
that answers the first `k` calls in the same way (what later calls would be
answered is not observed). Calls are counted from one here, as in the
specification; the text is not empty, as any text `JSON.parse` accepts. -/
theorem C2_success_on_attempt_k (N k : Nat) (env : Env) (payload : Json) (resp : Response)
    (bodyText : String) (envelope : Json) (t : String) (v : Json)
    (hk1 : 1 ≤ k) (hkN : k ≤ N)
    (hfail : ∀ j, j < k - 1 → ∃ e, tryBlock env payload j = .error e)
    (hfetch : env.fetch (k - 1) (request env payload) = .ok resp) (hok : resp.ok = true)
    (hbody : resp.body = .ok bodyText) (henv : env.parse bodyText = .ok envelope)
    (htext : HasText envelope (.str t)) (hne : t ≠ "") (hparse : env.parse t = .ok v) :
    (GeminiFetcherWith N env payload).outcome = .ok v ∧
    callCount (GeminiFetcherWith N env payload).trace = k ∧
    ∀ fetch2 : Nat → Request → Except JSError Response,
      (∀ j req, j < k → fetch2 j req = env.fetch j req) →
      GeminiFetcherWith N { env with fetch := fetch2 } payload =
        GeminiFetcherWith N env payload := by
  have hv := tryBlock_of_text env payload (k - 1) resp bodyText envelope t v hfetch hok hbody
    henv htext hne hparse
  have hrun := run_first_success env N payload (k - 1) v (by omega) hfail hv
  refine ⟨by rw [hrun], ?_, ?_⟩
  · rw [hrun]
    simp only [callCount_append, callCount_failedTrace, callCount]
    omega
  · intro fetch2 hsame
    have hfail2 : ∀ j, j < k - 1 →
        ∃ e, tryBlock { env with fetch := fetch2 } payload j = .error e := by
      intro j hj
      rw [tryBlock_congr env fetch2 payload j (fun req => hsame j req (by omega))]
      exact hfail j hj
    have hv2 : tryBlock { env with fetch := fetch2 } payload (k - 1) = .ok v := by
      rw [tryBlock_congr env fetch2 payload (k - 1) (fun req => hsame (k - 1) req (by omega))]
      exact hv
    rw [hrun, run_first_success _ N payload (k - 1) v (by omega) hfail2 hv2,
      failedTrace_congr]
    rfl

/-- C2 with bound 3: two answers with status 500, then a well-formed envelope. -/
theorem C2_success_on_attempt_k_witness :
    (∀ j, j < 3 - 1 → ∃ e, tryBlock thirdTimeEnv Json.null j = .error e) ∧
    (GeminiFetcherWith 3 thirdTimeEnv Json.null).outcome =
      .ok (.obj [("themeSuggestion", .str "X")]) ∧
    callCount (GeminiFetcherWith 3 thirdTimeEnv Json.null).trace = 3 :=
  have hfail : ∀ j, j < 3 - 1 → ∃ e, tryBlock thirdTimeEnv Json.null j = .error e := by
    intro j hj
    interval_cases j <;> exact ⟨_, rfl⟩
  have h := C2_success_on_attempt_k 3 3 thirdTimeEnv Json.null
    { status := 200, body := .ok "envelope" } "envelope"
    (.obj [("candidates", .arr [.obj [("content",
      .obj [("parts", .arr [.obj [("text", .str "payload")]])])]])])
    "payload" (.obj [("themeSuggestion", .str "X")])
    (by decide) (by decide) hfail rfl rfl rfl rfl ⟨_, _, _, _, _, rfl, rfl, rfl, rfl⟩
    (by decide) rfl
  ⟨hfail, h.1, h.2.1⟩

/-! ## C3 -/

/-- C3, the statement as written fails: with the jitter draw `1 - 2^-52`, a double
in `[0, 1)`, the wait after the iteration with index 1 is exactly 3000 ms, which is
not below `2^1 * 1000 + 1000` and is not the exact value of `2^1 * 1000 + r * 1000`:
the sum of line 57 is rounded to a double. -/
theorem C3_counterexample_delay_reaches_upper_end :
    (0 : ℚ) ≤ nearOne52 ∧ nearOne52 < 1 ∧ IsDouble nearOne52 ∧
    nearOne52Env.random 1 = nearOne52 ∧
    (delays (GeminiFetcher nearOne52Env Json.null).trace)[1]? = some 3000 ∧
    ¬ ((3000 : ℚ) < 2 ^ 1 * 1000 + 1000) ∧
    (3000 : ℚ) ≠ 2 ^ 1 * 1000 + nearOne52 * 1000 := by
  refine ⟨by norm_num [nearOne52], by norm_num [nearOne52], isDouble_nearOne52, rfl, ?_,
    by norm_num, by norm_num [nearOne52]⟩
  rw [delays_nearOne52Env_five]
  rfl

/-- C3, amended. In every run, the `i`-th backoff wait (the one inserted after the
failure of the iteration with zero-based index `i`, for `i` up to 43, which covers
the bound 5 of the code), computed from a jitter draw `r` with `0 ≤ r < 1`, is the
value of `2^i * 1000 + r * 1000` in double arithmetic (each product and the sum
rounded to the nearest double) and lies in the closed interval from `2^i * 1000` to
`2^i * 1000 + 1000`. -/
theorem C3_backoff_delay_closed_interval (N : Nat) (env : Env) (payload : Json) (i : Nat)
    (d : ℚ) (hd : (delays (GeminiFetcherWith N env payload).trace)[i]? = some d)
    (hi : i ≤ 43) (h0 : 0 ≤ env.random i) (h1 : env.random i < 1) :
    d = roundDouble (roundDouble (2 ^ i * 1000) + roundDouble (env.random i * 1000)) ∧
    2 ^ i * 1000 ≤ d ∧ d ≤ 2 ^ i * 1000 + 1000 := by
  obtain ⟨m, -, hm⟩ := delays_run env N payload
  rw [hm, List.getElem?_map] at hd
  have him : i < m := by
    by_contra hge
    rw [List.getElem?_eq_none (by simpa using hge)] at hd
    simp at hd
  rw [List.getElem?_range him] at hd
  simp only [Option.map_some', Option.some.injEq] at hd
  subst hd
  exact ⟨rfl, backoffDelay_ge i _ h0, backoffDelay_le i _ hi h0 h1.le⟩

/-- C3 amended, on a run with bound 2 whose first call fails with the draw one
half: the single wait is 1500 ms. -/
theorem C3_backoff_delay_closed_interval_witness :
    (delays (GeminiFetcherWith 2 downEnv Json.null).trace)[0]? = some 1500 ∧
    (0 : ℚ) ≤ downEnv.random 0 ∧ downEnv.random 0 < 1 ∧
    (2 : ℚ) ^ 0 * 1000 ≤ 1500 ∧ (1500 : ℚ) ≤ 2 ^ 0 * 1000 + 1000 :=
  have hd : (delays (GeminiFetcherWith 2 downEnv Json.null).trace)[0]? = some 1500 := by
    rw [delays_all_failed downEnv 2 Json.null (by decide) (fun _ _ => ⟨_, rfl⟩)]
    show ([backoffDelay 0 (downEnv.random 0)] : List ℚ)[0]? = some 1500
    rw [backoffDelay_of_half 0 (downEnv.random 0) (by norm_num) rfl]
    norm_num
  have h0 : (0 : ℚ) ≤ downEnv.random 0 := by norm_num [downEnv]
  have h1 : downEnv.random 0 < 1 := by norm_num [downEnv]
  have h := C3_backoff_delay_closed_interval 2 downEnv Json.null 0 1500 hd (by norm_num) h0 h1
  ⟨hd, h0, h1, h.2.1, h.2.2⟩

/-! ## C4 -/

/-- C4. When the `try` blocks of all `N` iterations throw (`N` at least one), the
trace of the run is: for each `i` in `0 .. N-2` a network call followed by the wait
`backoffDelay i`, then the network call of iteration `N-1`, then directly the
console output that precedes the throw. So there are exactly `N - 1` waits, one
after each of the failed iterations `0 .. N-2`, and none after the last one. -/
theorem C4_no_delay_after_last_attempt (N : Nat) (env : Env) (payload : Json) (hN : 1 ≤ N)
    (hfail : ∀ k, k < N → ∃ e, tryBlock env payload k = .error e) :
    (GeminiFetcherWith N env payload).trace =
      (List.range (N - 1)).flatMap (fun i =>
        [Event.fetchCall (request env payload), Event.sleep (backoffDelay i (env.random i))])
      ++ [Event.fetchCall (request env payload),
          Event.consoleError (some (errorOf env payload (N - 1)))] ∧
    (delays (GeminiFetcherWith N env payload).trace).length = N - 1 ∧
    callCount (GeminiFetcherWith N env payload).trace = N := by
  rw [run_all_failed env N payload hN hfail]
  refine ⟨?_, ?_, ?_⟩
  · simp [failedTrace_full env N payload hN]
  · simp [delays_append, delays, delays_failedTrace_full env N payload hN]
  · simp [callCount_append, callCount_failedTrace, callCount]

/-- C4 with bound 2 and a transport that rejects every call: 2 calls, 1 wait. -/
theorem C4_no_delay_after_last_attempt_witness :
    (∀ k, k < 2 → ∃ e, tryBlock downEnv Json.null k = .error e) ∧
    (GeminiFetcherWith 2 downEnv Json.null).trace =
      [Event.fetchCall (request downEnv Json.null), Event.sleep 1500,
       Event.fetchCall (request downEnv Json.null),
       Event.consoleError (some ⟨"TypeError", "Failed to fetch"⟩)] ∧
    (delays (GeminiFetcherWith 2 downEnv Json.null).trace).length = 1 ∧
    callCount (GeminiFetcherWith 2 downEnv Json.null).trace = 2 :=
  have h := C4_no_delay_after_last_attempt 2 downEnv Json.null (by decide)
    (fun _ _ => ⟨_, rfl⟩)
  ⟨fun _ _ => ⟨_, rfl⟩, by
    rw [h.1]
    show [Event.fetchCall (request downEnv Json.null),
      Event.sleep (backoffDelay 0 (downEnv.random 0)),
      Event.fetchCall (request downEnv Json.null),
      Event.consoleError (some (errorOf downEnv Json.null (2 - 1)))] = _
    rw [backoffDelay_of_half 0 (downEnv.random 0) (by norm_num) rfl]
    norm_num [errorOf, tryBlock, downEnv], h.2.1, h.2.2⟩

/-! ## C5 -/

/-- C5. Let the `try` blocks of calls `0 .. k-1` throw and let call `k` (below the
bound) be answered with an ok response whose body parses to an envelope from which
the nested text is missing at some level (`MissingText`). Then the `try` block of
call `k` throws (the error of line 48, or the `TypeError` of line 45 when the
envelope is `null`); the run goes on with the loop test for counter `k + 1` with
that error in `lastError`; when `k + 1` is below the bound a further call is made;
when iteration `k` was the last one the exhaustion error carries that error; and
any value the run returns comes from a later call. -/
theorem C5_missing_text_is_failure (N k : Nat) (env : Env) (payload : Json) (resp : Response)
    (bodyText : String) (envelope : Json) (hk : k < N)
    (hfail : ∀ j, j < k → ∃ e, tryBlock env payload j = .error e)
    (hfetch : env.fetch k (request env payload) = .ok resp) (hok : resp.ok = true)
    (hbody : resp.body = .ok bodyText) (henv : env.parse bodyText = .ok envelope)
    (hmiss : MissingText envelope) :
    tryBlock env payload k = .error (missingTextError envelope) ∧
    (envelope ≠ .null → missingTextError envelope = malformedError) ∧
    GeminiFetcherWith N env payload =
      retryLoop env N payload (k + 1)
        { lastError := some (missingTextError envelope),
          trace := failedTrace env N payload (k + 1) } ∧
    (k + 1 < N → k + 2 ≤ callCount (GeminiFetcherWith N env payload).trace) ∧
    (k + 1 = N → (GeminiFetcherWith N env payload).outcome =
      .error ⟨"Error", exhaustionText ++ (missingTextError envelope).message⟩) ∧
    (∀ v, (GeminiFetcherWith N env payload).outcome = .ok v →
      ∃ j, k < j ∧ j < N ∧ tryBlock env payload j = .ok v) := by
  have he := tryBlock_of_missing env payload k resp bodyText envelope hfetch hok hbody henv hmiss
  refine ⟨he, ?_, run_after_failure env N payload k _ hk hfail he⟩
  intro hne
  cases envelope <;> first | rfl | exact absurd rfl hne

/-- C5 with bound 2 on a transport whose envelopes have an empty `candidates`
array: the first iteration fails with the error of line 48 and a second call is
made. -/
theorem C5_missing_text_is_failure_witness :
    MissingText (.obj [("candidates", .arr [])]) ∧
    tryBlock emptyCandidatesEnv Json.null 0 = .error malformedError ∧
    2 ≤ callCount (GeminiFetcherWith 2 emptyCandidatesEnv Json.null).trace :=
  have hmiss : MissingText (.obj [("candidates", .arr [])]) := .emptyCandidates _ rfl
  have h := C5_missing_text_is_failure 2 0 emptyCandidatesEnv Json.null
    { status := 200, body := .ok "\x7b\"candidates\":[]\x7d" } "\x7b\"candidates\":[]\x7d"
    (.obj [("candidates", .arr [])]) (by decide) (fun j hj => absurd hj (Nat.not_lt_zero j))
    rfl rfl rfl rfl hmiss
  ⟨hmiss, h.1, h.2.2.2.1 (by decide)⟩

/-! ## C6 -/

/-- C6. Let the `try` blocks of calls `0 .. k-1` throw and let call `k` (below the
bound) be answered with an ok response whose envelope has the provider shape with
a text `t` that `JSON.parse` rejects with error `pe`. Then the `try` block of call
`k` throws inside the loop (`pe`, or the error of line 48 when `t` is empty); the
run goes on with the loop test for counter `k + 1` with that error in `lastError`;
when `k + 1` is below the bound a further call is made; when iteration `k` was the
last one the run ends with the exhaustion error around that error; and any value
the run returns comes from a later call. -/
theorem C6_unparseable_text_is_retried (N k : Nat) (env : Env) (payload : Json)
    (resp : Response) (bodyText : String) (envelope : Json) (t : String) (pe : JSError)
    (hk : k < N) (hfail : ∀ j, j < k → ∃ e, tryBlock env payload j = .error e)
    (hfetch : env.fetch k (request env payload) = .ok resp) (hok : resp.ok = true)
    (hbody : resp.body = .ok bodyText) (henv : env.parse bodyText = .ok envelope)
    (htext : HasText envelope (.str t)) (hparse : env.parse t = .error pe) :
    tryBlock env payload k = .error (if t = "" then malformedError else pe) ∧
    GeminiFetcherWith N env payload =
      retryLoop env N payload (k + 1)
        { lastError := some (if t = "" then malformedError else pe),
          trace := failedTrace env N payload (k + 1) } ∧
    (k + 1 < N → k + 2 ≤ callCount (GeminiFetcherWith N env payload).trace) ∧
    (k + 1 = N → (GeminiFetcherWith N env payload).outcome =
      .error ⟨"Error", exhaustionText ++ (if t = "" then malformedError else pe).message⟩) ∧
    (∀ v, (GeminiFetcherWith N env payload).outcome = .ok v →
      ∃ j, k < j ∧ j < N ∧ tryBlock env payload j = .ok v) := by
  have he := tryBlock_of_bad_text env payload k resp bodyText envelope t pe hfetch hok hbody
    henv htext hparse
  exact ⟨he, run_after_failure env N payload k _ hk hfail he⟩

/-- C6 with bound 2 on a transport whose texts are not JSON: the first iteration
records the parse error and a second call is made. -/
theorem C6_unparseable_text_is_retried_witness :
    HasText (envelopeOf (.str "Sorry, I cannot help with that."))
      (.str "Sorry, I cannot help with that.") ∧
    tryBlock badTextEnv Json.null 0 =
      .error ⟨"SyntaxError", "Unexpected token S in JSON at position 0"⟩ ∧
    2 ≤ callCount (GeminiFetcherWith 2 badTextEnv Json.null).trace :=
  have htext : HasText (envelopeOf (.str "Sorry, I cannot help with that."))
      (.str "Sorry, I cannot help with that.") := ⟨_, _, _, _, _, rfl, rfl, rfl, rfl⟩
  have h := C6_unparseable_text_is_retried 2 0 badTextEnv Json.null
    { status := 200, body := .ok "envelope" } "envelope"
    (envelopeOf (.str "Sorry, I cannot help with that.")) "Sorry, I cannot help with that."
    ⟨"SyntaxError", "Unexpected token S in JSON at position 0"⟩
    (by decide) (fun j hj => absurd hj (Nat.not_lt_zero j)) rfl rfl rfl rfl htext rfl
  ⟨htext, h.1, h.2.2.1 (by decide)⟩

/-! ## C7 -/

/-- C7. When the `try` blocks of all `N` iterations throw (`N` at least one), the
error the fetcher throws has the message "Failed to communicate with the AI
service. Please try again later. Details: " followed by the message of the error
of the last iteration, and it is not that text followed by the message of an
earlier iteration whose message differs from the last one. -/
theorem C7_exhaustion_message_last_error (N : Nat) (env : Env) (payload : Json) (hN : 1 ≤ N)
    (hfail : ∀ k, k < N → ∃ e, tryBlock env payload k = .error e) :
    (GeminiFetcherWith N env payload).outcome =
      .error ⟨"Error",
        "Failed to communicate with the AI service. Please try again later. Details: " ++
          (errorOf env payload (N - 1)).message⟩ ∧
    ∀ j, j < N - 1 →
      (errorOf env payload j).message ≠ (errorOf env payload (N - 1)).message →
      (GeminiFetcherWith N env payload).outcome ≠
        .error ⟨"Error",
          "Failed to communicate with the AI service. Please try again later. Details: " ++
            (errorOf env payload j).message⟩ := by
  rw [run_all_failed env N payload hN hfail]
  refine ⟨rfl, ?_⟩
  intro j _ hne heq
  simp only [Except.error.injEq, JSError.mk.injEq, true_and] at heq
  exact hne (string_append_left_cancel _ _ _ heq).symm

/-- C7 with bound 2: a rejected call, then status 503; the message carries the
description of the second failure. -/
theorem C7_exhaustion_message_last_error_witness :
    (∀ k, k < 2 → ∃ e, tryBlock flakyEnv Json.null k = .error e) ∧
    (GeminiFetcherWith 2 flakyEnv Json.null).outcome =
      .error ⟨"Error",
        "Failed to communicate with the AI service. Please try again later. Details: " ++
          "API responded with status 503: \x7b\x7d"⟩ ∧
    (GeminiFetcherWith 2 flakyEnv Json.null).outcome ≠
      .error ⟨"Error",
        "Failed to communicate with the AI service. Please try again later. Details: " ++
          "Failed to fetch"⟩ :=
  have hfail : ∀ k, k < 2 → ∃ e, tryBlock flakyEnv Json.null k = .error e := by
    intro k hk
    interval_cases k <;> exact ⟨_, rfl⟩
  have h := C7_exhaustion_message_last_error 2 flakyEnv Json.null (by decide) hfail
  ⟨hfail, h.1, h.2 0 (by decide) (by decide)⟩

/-! ## C8 -/

/-- C8, the code at a failing input. A response with status 503 whose body is empty
is a failed attempt, but the error recorded for it is the one that the
`response.json()` of line 40 throws before line 41 can build the status message:
its message does not contain the status, and when every call is answered so, the
message of the exhaustion error does not contain "503", as the statement requires. -/
theorem C8_empty_body_loses_status :
    gatewayEnv.fetch 0 (request gatewayEnv Json.null) = .ok { status := 503, body := .ok "" } ∧
    Response.ok { status := 503, body := .ok "" } = false ∧
    tryBlock gatewayEnv Json.null 0 =
      .error ⟨"SyntaxError", "Unexpected end of JSON input"⟩ ∧
    ¬ Mentions "Unexpected end of JSON input" (toString 503) ∧
    (∀ k, gatewayEnv.fetch k (request gatewayEnv Json.null) =
      .ok { status := 503, body := .ok "" }) ∧
    (GeminiFetcherWith 2 gatewayEnv Json.null).outcome =
      .error ⟨"Error", exhaustionText ++ "Unexpected end of JSON input"⟩ ∧
    ¬ Mentions (exhaustionText ++ "Unexpected end of JSON input") "503" := by
  refine ⟨rfl, rfl, rfl, ?_, fun _ => rfl, ?_, ?_⟩
  · exact not_mentions_of_char _ _ (Char.ofNat 53) (by decide) (by simp)
  · rw [run_all_failed gatewayEnv 2 Json.null (by decide) (fun _ _ => ⟨_, rfl⟩)]
    rfl
  · exact not_mentions_of_char _ _ (Char.ofNat 53) (by decide)
      (by rw [String.data_append]; simp [exhaustionText])

/-- The path of lines 39-42 that works: a response whose status is outside 200-299
makes the `try` block throw, whatever its body, and when the body parses as JSON to
a value `b`, the thrown error has the message "API responded with status " followed
by the decimal status, ": " and `JSON.stringify(b)`, so the message contains the
status code and the serialised body; when that iteration is the last one of a run
whose earlier iterations failed, the message of the exhaustion error contains the
status code. -/
theorem statusError_with_json_body (N k : Nat) (env : Env) (payload : Json)
    (resp : Response) (hfetch : env.fetch k (request env payload) = .ok resp)
    (hnok : resp.ok = false) :
    (∃ e, tryBlock env payload k = .error e) ∧
    ∀ text b, resp.body = .ok text → env.parse text = .ok b →
      tryBlock env payload k =
        .error ⟨"Error",
          "API responded with status " ++ toString resp.status ++ ": " ++ env.stringify b⟩ ∧
      Mentions ("API responded with status " ++ toString resp.status ++ ": " ++ env.stringify b)
        (toString resp.status) ∧
      Mentions ("API responded with status " ++ toString resp.status ++ ": " ++ env.stringify b)
        (env.stringify b) ∧
      (k + 1 = N → (∀ j, j < k → ∃ e, tryBlock env payload j = .error e) →
        ∃ m, (GeminiFetcherWith N env payload).outcome = .error ⟨"Error", m⟩ ∧
          Mentions m (toString resp.status)) := by
  have hfail : ∃ e, tryBlock env payload k = .error e := by
    cases hj : resp.json env with
    | error e => exact ⟨e, by simp [tryBlock, hfetch, hnok, hj]⟩
    | ok b => exact ⟨statusError env resp.status b, by simp [tryBlock, hfetch, hnok, hj]⟩
  refine ⟨hfail, ?_⟩
  intro text b hbody hparse
  have he : tryBlock env payload k =
      .error ⟨"Error",
        "API responded with status " ++ toString resp.status ++ ": " ++ env.stringify b⟩ := by
    simp [tryBlock, hfetch, hnok, Response.json, hbody, hparse, statusError]
  have hm1 : Mentions
      ("API responded with status " ++ toString resp.status ++ ": " ++ env.stringify b)
      (toString resp.status) := by
    have h := mentions_middle "API responded with status " (toString resp.status)
      (": " ++ env.stringify b)
    simpa [String.append_assoc] using h
  refine ⟨he, hm1, ?_, ?_⟩
  · have h := mentions_middle ("API responded with status " ++ toString resp.status ++ ": ")
      (env.stringify b) ""
    simpa using h
  · intro hlast hprev
    refine ⟨_, (run_after_failure env N payload k _ (by omega) hprev he).2.2.1 hlast, ?_⟩
    exact mentions_append_left _ _ _ hm1

/-- With bound 2 and every call answered with status 503 and a JSON body, the
message of the exhaustion error contains "503". -/
theorem statusError_with_json_body_example :
    Response.ok { status := 503, body := .ok "\x7b\x7d" } = false ∧
    tryBlock unavailableEnv Json.null 1 =
      .error ⟨"Error", "API responded with status 503: \x7b\x7d"⟩ ∧
    ∃ m, (GeminiFetcherWith 2 unavailableEnv Json.null).outcome = .error ⟨"Error", m⟩ ∧
      Mentions m "503" :=
  have h := (statusError_with_json_body 2 1 unavailableEnv Json.null
    { status := 503, body := .ok "\x7b\x7d" } rfl rfl).2 "\x7b\x7d" (.obj []) rfl rfl
  ⟨rfl, h.1, h.2.2.2 rfl (fun j hj => by interval_cases j; exact ⟨_, rfl⟩)⟩

/-! ## C9 -/

/-- C9. For every environment (every sequence of transport outcomes and of jitter
values) and every bound `N` of at least one, the run ends either by returning a
value or by throwing the exhaustion error, never both; it returns a value exactly
when the `try` block of some call with index below `N` returns, and it throws the
exhaustion error exactly when the `try` blocks of all calls below `N` throw. -/
theorem C9_exactly_one_terminal_outcome (N : Nat) (env : Env) (payload : Json) (hN : 1 ≤ N) :
    ((∃ v, (GeminiFetcherWith N env payload).outcome = .ok v) ↔
      ∃ k, k < N ∧ ∃ v, tryBlock env payload k = .ok v) ∧
    ((∃ e : JSError, (GeminiFetcherWith N env payload).outcome =
        .error ⟨"Error", exhaustionText ++ e.message⟩) ↔
      ∀ k, k < N → ∃ e, tryBlock env payload k = .error e) ∧
    ((∃ v, (GeminiFetcherWith N env payload).outcome = .ok v) ∨
      ∃ e : JSError, (GeminiFetcherWith N env payload).outcome =
        .error ⟨"Error", exhaustionText ++ e.message⟩) ∧
    ¬ ((∃ v, (GeminiFetcherWith N env payload).outcome = .ok v) ∧
      ∃ e, (GeminiFetcherWith N env payload).outcome = .error e) := by
  rcases run_cases env N payload with ⟨k, v, hk, hfail, hv, hrun⟩ | ⟨hfail, -⟩
  · have hok : (GeminiFetcherWith N env payload).outcome = .ok v := by rw [hrun]
    refine ⟨⟨fun _ => ⟨k, hk, v, hv⟩, fun _ => ⟨v, hok⟩⟩, ⟨?_, ?_⟩, Or.inl ⟨v, hok⟩, ?_⟩
    · rintro ⟨e, he⟩
      rw [hok] at he
      cases he
    · intro hall
      obtain ⟨e, he⟩ := hall k hk
      rw [he] at hv
      cases hv
    · rintro ⟨-, e, he⟩
      rw [hok] at he
      cases he
  · have hrun := run_all_failed env N payload hN hfail
    have herr : (GeminiFetcherWith N env payload).outcome =
        .error ⟨"Error", exhaustionText ++ (errorOf env payload (N - 1)).message⟩ := by
      rw [hrun]
    refine ⟨⟨?_, ?_⟩, ⟨fun _ => hfail, fun _ => ⟨_, herr⟩⟩, Or.inr ⟨_, herr⟩, ?_⟩
    · rintro ⟨v, hv⟩
      rw [herr] at hv
      cases hv
    · rintro ⟨k, hk, v, hv⟩
      obtain ⟨e, he⟩ := hfail k hk
      rw [he] at hv
      cases hv
    · rintro ⟨⟨v, hv⟩, -⟩
      rw [herr] at hv
      cases hv

/-- C9 at the bound of the code: a transport whose third call succeeds makes the
fetcher return, and one that rejects every call makes it throw. -/
theorem C9_exactly_one_terminal_outcome_witness :
    1 ≤ MAX_RETRIES ∧
    (∃ v, (GeminiFetcher thirdTimeEnv Json.null).outcome = .ok v) ∧
    ∃ e : JSError, (GeminiFetcher downEnv Json.null).outcome =
      .error ⟨"Error", exhaustionText ++ e.message⟩ :=
  ⟨by decide,
    (C9_exactly_one_terminal_outcome MAX_RETRIES thirdTimeEnv Json.null (by decide)).1.mpr
      ⟨2, by decide, _, rfl⟩,
    (C9_exactly_one_terminal_outcome MAX_RETRIES downEnv Json.null (by decide)).2.1.mpr
      (fun _ _ => ⟨_, rfl⟩)⟩

/-! ## C10 -/

/-- C10. For every environment, the fetcher (a total function: the loop is defined
by recursion on `N - attempt`) makes at most `MAX_RETRIES = 5` network calls; more
generally the loop resumed with counter `a` makes at most `N - a` further calls, so
no call is made once the counter has reached the bound; and when no call ever
succeeds the number of calls is exactly 5. -/
theorem C10_at_most_max_retries_calls (env : Env) (payload : Json) :
    callCount (GeminiFetcher env payload).trace ≤ MAX_RETRIES ∧ MAX_RETRIES = 5 ∧
    (∀ (N a : Nat) (st : LoopState),
      callCount (retryLoop env N payload a st).trace ≤ callCount st.trace + (N - a)) ∧
    (∀ (N a : Nat) (st : LoopState), N ≤ a →
      callCount (retryLoop env N payload a st).trace = callCount st.trace) ∧
    ((∀ k, ∃ e, tryBlock env payload k = .error e) →
      callCount (GeminiFetcher env payload).trace = 5) := by
  refine ⟨?_, rfl, fun N a st => callCount_retryLoop_le env N payload (N - a) a st rfl, ?_, ?_⟩
  · have h := callCount_retryLoop_le env MAX_RETRIES payload MAX_RETRIES 0
      { lastError := none, trace := [] } rfl
    simpa [GeminiFetcher, GeminiFetcherWith, callCount] using h
  · intro N a st h
    rw [retryLoop_exit env N payload a st h, callCount_afterLoop]
  · intro hall
    rw [GeminiFetcher, run_all_failed env MAX_RETRIES payload (by decide) (fun k _ => hall k)]
    simp [callCount_append, callCount_failedTrace, callCount, MAX_RETRIES]

/-- C10 on a transport that rejects every call: exactly five calls are made. -/
theorem C10_at_most_max_retries_calls_witness :
    (∀ k, ∃ e, tryBlock downEnv Json.null k = .error e) ∧
    callCount (GeminiFetcher downEnv Json.null).trace = 5 :=
  ⟨fun _ => ⟨_, rfl⟩,
    (C10_at_most_max_retries_calls downEnv Json.null).2.2.2.2 (fun _ => ⟨_, rfl⟩)⟩

/-! ## C11 -/

/-- C11. Let the `try` blocks of calls `0 .. k-1` throw and let call `k` (below the
bound) be answered with an ok response whose envelope has the provider shape with a
text `t` that parses to `v`. Then the fetcher returns exactly `v`, for every value
`v`: nothing about `v` is checked, so it may lack the five expected members and
need not be an object. -/
theorem C11_no_shape_validation (N k : Nat) (env : Env) (payload : Json) (resp : Response)
    (bodyText : String) (envelope : Json) (t : String) (v : Json) (hk : k < N)
    (hfail : ∀ j, j < k → ∃ e, tryBlock env payload j = .error e)
    (hfetch : env.fetch k (request env payload) = .ok resp) (hok : resp.ok = true)
    (hbody : resp.body = .ok bodyText) (henv : env.parse bodyText = .ok envelope)
    (htext : HasText envelope (.str t)) (hne : t ≠ "") (hparse : env.parse t = .ok v) :
    tryBlock env payload k = .ok v ∧
    (GeminiFetcherWith N env payload).outcome = .ok v ∧
    ∀ e, (GeminiFetcherWith N env payload).outcome ≠ .error e := by
  have hv := tryBlock_of_text env payload k resp bodyText envelope t v hfetch hok hbody henv
    htext hne hparse
  have hrun := run_first_success env N payload k v hk hfail hv
  refine ⟨hv, by rw [hrun], ?_⟩
  intro e he
  rw [hrun] at he
  cases he

/-- C11 at the bound of the code on a transport whose text is the number 42: the
fetcher returns the number, which is not an object and has none of the members. -/
theorem C11_no_shape_validation_witness :
    HasText (envelopeOf (.str "42")) (.str "42") ∧
    hasRequiredFields (.num 42) = false ∧
    (GeminiFetcher numberEnv Json.null).outcome = .ok (.num 42) :=
  have htext : HasText (envelopeOf (.str "42")) (.str "42") := ⟨_, _, _, _, _, rfl, rfl, rfl, rfl⟩
  have h := C11_no_shape_validation MAX_RETRIES 0 numberEnv Json.null
    { status := 200, body := .ok "envelope" } "envelope" (envelopeOf (.str "42")) "42" (.num 42)
    (by decide) (fun j hj => absurd hj (Nat.not_lt_zero j)) rfl rfl rfl rfl htext
    (by decide) rfl
  ⟨htext, rfl, h.2.1⟩

/-! ## C12 -/

/-- C12, the statement as written fails: a payload without `invitationDraft` is
returned by the fetcher as its result after a single call, whereas an envelope
without text makes every one of the five iterations fail and ends in the
exhaustion error. -/
theorem C12_counterexample_missing_field_returned :
    hasRequiredFields (.obj [("themeSuggestion", .str "A"), ("themeDescription", .str "B"),
      ("signatureCocktail", .str "C"), ("cocktailRecipeIdea", .str "D")]) = false ∧
    (GeminiFetcher fourFieldsEnv Json.null).outcome =
      .ok (.obj [("themeSuggestion", .str "A"), ("themeDescription", .str "B"),
        ("signatureCocktail", .str "C"), ("cocktailRecipeIdea", .str "D")]) ∧
    callCount (GeminiFetcher fourFieldsEnv Json.null).trace = 1 ∧
    (GeminiFetcher emptyCandidatesEnv Json.null).outcome =
      .error ⟨"Error", exhaustionText ++ malformedError.message⟩ ∧
    callCount (GeminiFetcher emptyCandidatesEnv Json.null).trace = 5 := by
  have h4 := run_first_success fourFieldsEnv MAX_RETRIES Json.null 0 _ (by decide)
    (fun j hj => absurd hj (Nat.not_lt_zero j)) rfl
  have h0 := run_all_failed emptyCandidatesEnv MAX_RETRIES Json.null (by decide)
    (fun _ _ => ⟨_, rfl⟩)
  refine ⟨rfl, ?_, ?_, ?_, ?_⟩
  · rw [GeminiFetcher, h4]
  · rw [GeminiFetcher, h4]
    rfl
  · rw [GeminiFetcher, h0]
    rfl
  · rw [GeminiFetcher, h0]
    simp [callCount_append, callCount_failedTrace, callCount, MAX_RETRIES]

/-- C12, amended. A response whose parsed payload `v` lacks one of the five
required string members is not a malformed response for the fetcher: when the
`try` blocks of calls `0 .. k-1` throw and call `k` is answered with an ok response
of the provider shape whose text parses to such a `v`, the `try` block returns, the
fetcher returns `v`, and call `k` is the last call made. -/
theorem C12_missing_field_is_returned (N k : Nat) (env : Env) (payload : Json)
    (resp : Response) (bodyText : String) (envelope : Json) (t : String) (v : Json)
    (hk : k < N) (hfail : ∀ j, j < k → ∃ e, tryBlock env payload j = .error e)
    (hfetch : env.fetch k (request env payload) = .ok resp) (hok : resp.ok = true)
    (hbody : resp.body = .ok bodyText) (henv : env.parse bodyText = .ok envelope)
    (htext : HasText envelope (.str t)) (hne : t ≠ "") (hparse : env.parse t = .ok v)
    (_hlack : hasRequiredFields v = false) :
    tryBlock env payload k = .ok v ∧
    tryBlock env payload k ≠ .error malformedError ∧
    (GeminiFetcherWith N env payload).outcome = .ok v ∧
    callCount (GeminiFetcherWith N env payload).trace = k + 1 := by
  have hv := tryBlock_of_text env payload k resp bodyText envelope t v hfetch hok hbody henv
    htext hne hparse
  have hrun := run_first_success env N payload k v hk hfail hv
  refine ⟨hv, ?_, by rw [hrun], ?_⟩
  · rw [hv]
    intro h
    cases h
  · rw [hrun]
    simp [callCount_append, callCount_failedTrace, callCount]

/-- C12 amended, at the bound of the code on a transport whose payload has four of
the five members. -/
theorem C12_missing_field_is_returned_witness :
    HasText (envelopeOf (.str "four")) (.str "four") ∧
    hasRequiredFields (.obj [("themeSuggestion", .str "A"), ("themeDescription", .str "B"),
      ("signatureCocktail", .str "C"), ("cocktailRecipeIdea", .str "D")]) = false ∧
    (GeminiFetcher fourFieldsEnv Json.null).outcome =
      .ok (.obj [("themeSuggestion", .str "A"), ("themeDescription", .str "B"),
        ("signatureCocktail", .str "C"), ("cocktailRecipeIdea", .str "D")]) ∧
    callCount (GeminiFetcher fourFieldsEnv Json.null).trace = 0 + 1 :=
  have htext : HasText (envelopeOf (.str "four")) (.str "four") :=
    ⟨_, _, _, _, _, rfl, rfl, rfl, rfl⟩
  have h := C12_missing_field_is_returned MAX_RETRIES 0 fourFieldsEnv Json.null
    { status := 200, body := .ok "envelope" } "envelope" (envelopeOf (.str "four")) "four"
    (.obj [("themeSuggestion", .str "A"), ("themeDescription", .str "B"),
      ("signatureCocktail", .str "C"), ("cocktailRecipeIdea", .str "D")])
    (by decide) (fun j hj => absurd hj (Nat.not_lt_zero j)) rfl rfl rfl rfl htext
    (by decide) rfl rfl
  ⟨htext, rfl, h.2.2.1, h.2.2.2⟩

/-! ## C13 -/

/-- C13, the statement as written fails. With the bound 5 and a transport that
rejects every call there are four waits (after the iterations 0, 1, 2 and 3), none
of 16000 ms or more, and the call of iteration 4 is followed directly by the
console output that precedes the throw. And with every jitter draw `1 - 2^-52`, a
double in `[0, 1)`, the waits after the iterations 1, 2 and 3 are exactly 3000, 5000
and 9000 ms, the excluded upper ends of the intervals. -/
theorem C13_counterexample_no_fifth_delay :
    delays (GeminiFetcher downEnv Json.null).trace = [1500, 2500, 4500, 8500] ∧
    (delays (GeminiFetcher downEnv Json.null).trace)[4]? = none ∧
    (∀ d, d ∈ delays (GeminiFetcher downEnv Json.null).trace → d < 16000) ∧
    (∃ before, (GeminiFetcher downEnv Json.null).trace =
      before ++ [Event.sleep 8500, Event.fetchCall (request downEnv Json.null),
        Event.consoleError (some ⟨"TypeError", "Failed to fetch"⟩)]) ∧
    ((0 : ℚ) ≤ nearOne52 ∧ nearOne52 < 1 ∧ IsDouble nearOne52) ∧
    delays (GeminiFetcher nearOne52Env Json.null).trace =
      [2000 - 1 / 2 ^ 42, 3000, 5000, 9000] ∧
    ¬ ((3000 : ℚ) < 3000) ∧ ¬ ((5000 : ℚ) < 5000) ∧ ¬ ((9000 : ℚ) < 9000) := by
  have hd := delays_downEnv_five
  refine ⟨hd, by rw [hd]; rfl, ?_, ?_,
    ⟨by norm_num [nearOne52], by norm_num [nearOne52], isDouble_nearOne52⟩,
    delays_nearOne52Env_five, by norm_num, by norm_num, by norm_num⟩
  · intro d hmem
    rw [hd] at hmem
    simp only [List.mem_cons, List.mem_singleton, List.not_mem_nil, or_false] at hmem
    rcases hmem with h | h | h | h <;> rw [h] <;> norm_num
  · rw [GeminiFetcher, run_all_failed downEnv MAX_RETRIES Json.null (by decide)
      (fun _ _ => ⟨_, rfl⟩), failedTrace_full downEnv MAX_RETRIES Json.null (by decide)]
    refine ⟨[Event.fetchCall (request downEnv Json.null), Event.sleep 1500,
      Event.fetchCall (request downEnv Json.null), Event.sleep 2500,
      Event.fetchCall (request downEnv Json.null), Event.sleep 4500,
      Event.fetchCall (request downEnv Json.null)], ?_⟩
    show [Event.fetchCall (request downEnv Json.null),
      Event.sleep (backoffDelay 0 (downEnv.random 0)),
      Event.fetchCall (request downEnv Json.null),
      Event.sleep (backoffDelay 1 (downEnv.random 1)),
      Event.fetchCall (request downEnv Json.null),
      Event.sleep (backoffDelay 2 (downEnv.random 2)),
      Event.fetchCall (request downEnv Json.null),
      Event.sleep (backoffDelay 3 (downEnv.random 3)),
      Event.fetchCall (request downEnv Json.null),
      Event.consoleError (some (errorOf downEnv Json.null (MAX_RETRIES - 1)))] = _
    rw [backoffDelay_of_half 0 (downEnv.random 0) (by norm_num) rfl,
      backoffDelay_of_half 1 (downEnv.random 1) (by norm_num) rfl,
      backoffDelay_of_half 2 (downEnv.random 2) (by norm_num) rfl,
      backoffDelay_of_half 3 (downEnv.random 3) (by norm_num) rfl]
    norm_num [MAX_RETRIES, errorOf, tryBlock, downEnv]

/-- C13, amended. With the bound 5 of the code, when all five iterations fail and
the jitter draws lie in `[0, 1)`, there are exactly four waits, after the iterations
0, 1, 2 and 3, lying in the closed intervals `[1000, 2000]`, `[2000, 3000]`,
`[4000, 5000]` and `[8000, 9000]` milliseconds; the failed iteration 4 is followed
by no wait. -/
theorem C13_four_delays_with_bound_five (env : Env) (payload : Json)
    (hfail : ∀ k, k < MAX_RETRIES → ∃ e, tryBlock env payload k = .error e)
    (hr : ∀ i, 0 ≤ env.random i ∧ env.random i < 1) :
    ∃ d0 d1 d2 d3 : ℚ,
      delays (GeminiFetcher env payload).trace = [d0, d1, d2, d3] ∧
      (1000 ≤ d0 ∧ d0 ≤ 2000) ∧ (2000 ≤ d1 ∧ d1 ≤ 3000) ∧
      (4000 ≤ d2 ∧ d2 ≤ 5000) ∧ (8000 ≤ d3 ∧ d3 ≤ 9000) ∧
      ∃ before, (GeminiFetcher env payload).trace =
        before ++ [Event.sleep d3, Event.fetchCall (request env payload),
          Event.consoleError (some (errorOf env payload 4))] := by
  have hb : ∀ i, i ≤ 3 → (2 : ℚ) ^ i * 1000 ≤ backoffDelay i (env.random i) ∧
      backoffDelay i (env.random i) ≤ 2 ^ i * 1000 + 1000 := fun i hi =>
    ⟨backoffDelay_ge i _ (hr i).1, backoffDelay_le i _ (by omega) (hr i).1 (hr i).2.le⟩
  have h0 := hb 0 (by norm_num)
  have h1 := hb 1 (by norm_num)
  have h2 := hb 2 (by norm_num)
  have h3 := hb 3 (by norm_num)
  norm_num at h0 h1 h2 h3
  refine ⟨_, _, _, _, delays_all_failed_five env payload hfail, h0, h1, h2, h3, ?_⟩
  rw [GeminiFetcher, run_all_failed env MAX_RETRIES payload (by decide) hfail,
    failedTrace_full env MAX_RETRIES payload (by decide)]
  refine ⟨[Event.fetchCall (request env payload), Event.sleep (backoffDelay 0 (env.random 0)),
    Event.fetchCall (request env payload), Event.sleep (backoffDelay 1 (env.random 1)),
    Event.fetchCall (request env payload), Event.sleep (backoffDelay 2 (env.random 2)),
    Event.fetchCall (request env payload)], ?_⟩
  simp [MAX_RETRIES, List.range_succ]

/-- C13 amended, on a transport that rejects every call and draws 1/2 each time. -/
theorem C13_four_delays_with_bound_five_witness :
    (∀ k, k < MAX_RETRIES → ∃ e, tryBlock downEnv Json.null k = .error e) ∧
    (∀ i, (0 : ℚ) ≤ downEnv.random i ∧ downEnv.random i < 1) ∧
    ∃ d0 d1 d2 d3 : ℚ,
      delays (GeminiFetcher downEnv Json.null).trace = [d0, d1, d2, d3] ∧
      (1000 ≤ d0 ∧ d0 ≤ 2000) ∧ (2000 ≤ d1 ∧ d1 ≤ 3000) ∧
      (4000 ≤ d2 ∧ d2 ≤ 5000) ∧ (8000 ≤ d3 ∧ d3 ≤ 9000) :=
  have hr : ∀ i, (0 : ℚ) ≤ downEnv.random i ∧ downEnv.random i < 1 := by
    intro i
    norm_num [downEnv]
  have h := C13_four_delays_with_bound_five downEnv Json.null (fun _ _ => ⟨_, rfl⟩) hr
  ⟨fun _ _ => ⟨_, rfl⟩, hr,
    h.elim fun d0 h0 => h0.elim fun d1 h1 => h1.elim fun d2 h2 => h2.elim fun d3 h3 =>
      ⟨d0, d1, d2, d3, h3.1, h3.2.1, h3.2.2.1, h3.2.2.2.1, h3.2.2.2.2.1⟩⟩

/-! ## C14 -/

/-- C14. For every `k` with `1 ≤ k ≤ N` (calls counted from one): when the `try`
blocks of calls `1 .. k-1` throw and that of call `k` returns `v`, the waits of the
run are `delay(0), ..., delay(k-2)`, so the time spent in backoff before the return
is their sum, which is at least `(2^(k-1) - 1) * 1000` milliseconds when the jitter
draws are not negative; the fetcher returns `v` after exactly `k` network calls.
For `k = 3` the bound is 3000 ms with 3 calls. -/
theorem C14_total_backoff_before_success (N k : Nat) (env : Env) (payload : Json) (v : Json)
    (hk1 : 1 ≤ k) (hkN : k ≤ N)
    (hfail : ∀ j, j < k - 1 → ∃ e, tryBlock env payload j = .error e)
    (hv : tryBlock env payload (k - 1) = .ok v) (hr : ∀ i, 0 ≤ env.random i) :
    delays (GeminiFetcherWith N env payload).trace =
      (List.range (k - 1)).map (fun i => backoffDelay i (env.random i)) ∧
    ((2 : ℚ) ^ (k - 1) - 1) * 1000 ≤ (delays (GeminiFetcherWith N env payload).trace).sum ∧
    callCount (GeminiFetcherWith N env payload).trace = k ∧
    (GeminiFetcherWith N env payload).outcome = .ok v := by
  have hrun := run_first_success env N payload (k - 1) v (by omega) hfail hv
  have hd : delays (GeminiFetcherWith N env payload).trace =
      (List.range (k - 1)).map (fun i => backoffDelay i (env.random i)) := by
    rw [hrun]
    simp [delays_append, delays, delays_failedTrace env N payload (k - 1) (by omega)]
  refine ⟨hd, ?_, ?_, by rw [hrun]⟩
  · rw [hd]
    exact sum_backoff_ge env.random hr (k - 1)
  · rw [hrun]
    simp only [callCount_append, callCount_failedTrace, callCount]
    omega

/-- C14 with bound 3 and `k = 3`: two answers with status 500, then a well-formed
envelope; the waits are 1500 and 2500 ms, at least 3000 ms in total, with 3 calls. -/
theorem C14_total_backoff_before_success_witness :
    (∀ j, j < 3 - 1 → ∃ e, tryBlock thirdTimeEnv Json.null j = .error e) ∧
    delays (GeminiFetcherWith 3 thirdTimeEnv Json.null).trace = [1500, 2500] ∧
    (3000 : ℚ) ≤ (delays (GeminiFetcherWith 3 thirdTimeEnv Json.null).trace).sum ∧
    callCount (GeminiFetcherWith 3 thirdTimeEnv Json.null).trace = 3 :=
  have hfail : ∀ j, j < 3 - 1 → ∃ e, tryBlock thirdTimeEnv Json.null j = .error e := by
    intro j hj
    interval_cases j <;> exact ⟨_, rfl⟩
  have hr : ∀ i, (0 : ℚ) ≤ thirdTimeEnv.random i := by
    intro i
    norm_num [thirdTimeEnv]
  have h := C14_total_backoff_before_success 3 3 thirdTimeEnv Json.null
    (.obj [("themeSuggestion", .str "X")]) (by decide) (by decide) hfail rfl hr
  ⟨hfail, by
    rw [h.1]
    show [backoffDelay 0 (thirdTimeEnv.random 0), backoffDelay 1 (thirdTimeEnv.random 1)] = _
    rw [backoffDelay_of_half 0 (thirdTimeEnv.random 0) (by norm_num) rfl,
      backoffDelay_of_half 1 (thirdTimeEnv.random 1) (by norm_num) rfl]
    norm_num,
    by have h2 := h.2.1; norm_num at h2; exact h2, h.2.2.1⟩

/-! ## C15 -/

/-- C15. Take two environments with the same jitter draws in which, for every call
index below the bound, the `try` block returns in one exactly when it returns in the
other. Then the two runs make the same number of network calls and wait the same
sequence of backoff delays, whatever makes each failing `try` block throw (a
rejected `fetch`, a status that is not ok, a missing text, a text that does not
parse). When the two requests are equal as well, the traces of the two runs are the
same but for the error that is logged. -/
theorem C15_failure_kind_does_not_change_schedule (N : Nat) (env1 env2 : Env)
    (payload1 payload2 : Json) (hrand : ∀ i, env1.random i = env2.random i)
    (hsame : ∀ k, k < N → succeeds env1 payload1 k = succeeds env2 payload2 k) :
    callCount (GeminiFetcherWith N env1 payload1).trace =
      callCount (GeminiFetcherWith N env2 payload2).trace ∧
    delays (GeminiFetcherWith N env1 payload1).trace =
      delays (GeminiFetcherWith N env2 payload2).trace ∧
    (request env1 payload1 = request env2 payload2 →
      (GeminiFetcherWith N env1 payload1).trace.map eraseLogged =
        (GeminiFetcherWith N env2 payload2).trace.map eraseLogged) := by
  have hft : ∀ m, request env1 payload1 = request env2 payload2 →
      failedTrace env1 N payload1 m = failedTrace env2 N payload2 m := by
    intro m hreq
    induction m with
    | zero => rfl
    | succ m ih => simp only [failedTrace, ih, hreq, hrand]
  have hdel : ∀ m, (List.range m).map (fun i => backoffDelay i (env1.random i)) =
      (List.range m).map (fun i => backoffDelay i (env2.random i)) := by
    intro m
    simp only [hrand]
  have hok : ∀ (env : Env) (payload : Json) k v, tryBlock env payload k = .ok v →
      succeeds env payload k = true := by
    intro env payload k v h
    simp [succeeds, h]
  have herr : ∀ (env : Env) (payload : Json) k e, tryBlock env payload k = .error e →
      succeeds env payload k = false := by
    intro env payload k e h
    simp [succeeds, h]
  rcases run_cases env1 N payload1 with ⟨k1, v1, hk1, hf1, hv1, hrun1⟩ | ⟨hf1, hrun1⟩ <;>
    rcases run_cases env2 N payload2 with ⟨k2, v2, hk2, hf2, hv2, hrun2⟩ | ⟨hf2, hrun2⟩
  · have hk : k1 = k2 := by
      rcases Nat.lt_trichotomy k1 k2 with h | h | h
      · obtain ⟨e, he⟩ := hf2 k1 h
        have := hsame k1 hk1
        rw [hok _ _ _ _ hv1, herr _ _ _ _ he] at this
        cases this
      · exact h
      · obtain ⟨e, he⟩ := hf1 k2 h
        have := hsame k2 hk2
        rw [hok _ _ _ _ hv2, herr _ _ _ _ he] at this
        cases this
    subst hk
    rw [hrun1, hrun2]
    refine ⟨?_, ?_, ?_⟩
    · simp [callCount_append, callCount_failedTrace, callCount]
    · simp [delays_append, delays, delays_failedTrace _ N _ k1 (by omega), hdel]
    · intro hreq
      simp [hft k1 hreq, hreq]
  · obtain ⟨e, he⟩ := hf2 k1 hk1
    have := hsame k1 hk1
    rw [hok _ _ _ _ hv1, herr _ _ _ _ he] at this
    cases this
  · obtain ⟨e, he⟩ := hf1 k2 hk2
    have := hsame k2 hk2
    rw [hok _ _ _ _ hv2, herr _ _ _ _ he] at this
    cases this
  · rw [hrun1, hrun2]
    refine ⟨?_, ?_, ?_⟩
    · simp [callCount_afterLoop, callCount_failedTrace]
    · rw [delays_afterLoop, delays_afterLoop]
      rcases Nat.eq_zero_or_pos N with h0 | hpos
      · subst h0
        rfl
      · rw [delays_failedTrace_full env1 N payload1 hpos,
          delays_failedTrace_full env2 N payload2 hpos, hdel]
    · intro hreq
      unfold afterLoop
      simp only [hft N hreq]
      split <;> split <;> simp [eraseLogged]

/-- C15 with bound 2: a transport whose failures are a rejected call and a status
503, and one whose failures are bodies that do not parse, give 2 calls and the same
single wait. -/
theorem C15_failure_kind_does_not_change_schedule_witness :
    (∀ i, flakyEnv.random i = gatewayEnv.random i) ∧
    (∀ k, k < 2 → succeeds flakyEnv Json.null k = succeeds gatewayEnv Json.null k) ∧
    errorOf flakyEnv Json.null 0 ≠ errorOf gatewayEnv Json.null 0 ∧
    callCount (GeminiFetcherWith 2 flakyEnv Json.null).trace =
      callCount (GeminiFetcherWith 2 gatewayEnv Json.null).trace ∧
    delays (GeminiFetcherWith 2 flakyEnv Json.null).trace =
      delays (GeminiFetcherWith 2 gatewayEnv Json.null).trace :=
  have hsame : ∀ k, k < 2 →
      succeeds flakyEnv Json.null k = succeeds gatewayEnv Json.null k := by
    intro k hk
    interval_cases k <;> rfl
  have h := C15_failure_kind_does_not_change_schedule 2 flakyEnv gatewayEnv Json.null Json.null
    (fun _ => rfl) hsame
  ⟨fun _ => rfl, hsame, by decide, h.1, h.2.1⟩

/-! ## C16 -/

/-- C16. For every environment, hence every outcome of the fetcher,
`handleGenerateVibe` returns normally and leaves `isLoading` false. When the fetcher
throws `e`, `error` is `e.message` and `result` is `null`; when the fetcher returns
`v`, `result` is `v` and `error` is `null`. The three form fields are unchanged. -/
theorem C16_handler_catches_every_failure (env : Env) (st : FormState) :
    ∃ st2, handleGenerateVibe env st = .ok st2 ∧ st2.isLoading = false ∧
      (∀ e, (GeminiFetcher env (vibePayload st.eventType st.guests st.vibe)).outcome = .error e →
        st2.error = some e.message ∧ st2.result = Json.null) ∧
      (∀ v, (GeminiFetcher env (vibePayload st.eventType st.guests st.vibe)).outcome = .ok v →
        st2.result = v ∧ st2.error = none) ∧
      st2.eventType = st.eventType ∧ st2.guests = st.guests ∧ st2.vibe = st.vibe := by
  refine ⟨_, rfl, rfl, ?_, ?_, ?_, ?_, ?_⟩
  · intro e he
    rw [he]
    exact ⟨rfl, rfl⟩
  · intro v hv
    rw [hv]
    exact ⟨rfl, rfl⟩
  all_goals
    cases (GeminiFetcher env (vibePayload st.eventType st.guests st.vibe)).outcome <;> rfl

/-- C16 on a transport that rejects every call, from the initial form state: the
handler returns with the message of the exhaustion error in `error`. -/
theorem C16_handler_catches_every_failure_witness :
    ∃ st2, handleGenerateVibe downEnv initialFormState = .ok st2 ∧ st2.isLoading = false ∧
      st2.error = some (exhaustionText ++ "Failed to fetch") ∧ st2.result = Json.null :=
  (C16_handler_catches_every_failure downEnv initialFormState).elim fun st2 h =>
    have hout : (GeminiFetcher downEnv
        (vibePayload initialFormState.eventType initialFormState.guests
          initialFormState.vibe)).outcome =
        .error ⟨"Error", exhaustionText ++ "Failed to fetch"⟩ := by
      rw [GeminiFetcher, run_all_failed downEnv MAX_RETRIES _ (by decide) (fun _ _ => ⟨_, rfl⟩)]
      rfl
    ⟨st2, h.1, h.2.1, (h.2.2.1 _ hout).1, (h.2.2.1 _ hout).2⟩

/-! ## C17 -/

/-- C17. For every string in the guest-count input, whatever `parseInt` reads from
it, the value the `onChange` handler of line 213 stores is an integer between 1 and
30, both included. -/
theorem C17_guest_count_in_range (parseInt : String → Option Int) (value : String) :
    1 ≤ onGuestsChange parseInt value ∧ onGuestsChange parseInt value ≤ 30 := by
  unfold onGuestsChange
  constructor
  · exact le_min (by norm_num) (le_max_left _ _)
  · exact min_le_left _ _

/-! ## C18 -/

/-- C18. For every event type, guest count and vibe text, the payload of
`handleGenerateVibe` has exactly the three top-level members `contents`,
`systemInstruction` and `generationConfig`; `contents` carries the user query text,
which is the template of line 105 with the event type, the guest count in decimal
and the vibe text spliced in (so it contains each of the three);
`systemInstruction` carries the instruction text of line 103; the response schema
declares exactly five properties, each of type `STRING`; its `required` list is
those five names; and they are the five members that `ResultDisplay` reads. -/
theorem C18_payload_shape (eventType : String) (guests : Int) (vibe : String) :
    (vibePayload eventType guests vibe).keys =
      ["contents", "systemInstruction", "generationConfig"] ∧
    (vibePayload eventType guests vibe).getProp (.named "contents") =
      some (.arr [.obj [("parts", .arr [.obj [("text",
        .str ("Generate a creative event suggestion for: Event Type: " ++ eventType ++
          ", Guests: " ++ toString guests ++ " people, Vibe/Keywords: " ++ vibe ++
          ". Focus on a high-end, elegant execution for a Pune rooftop."))]])]]) ∧
    (Mentions (userQuery eventType guests vibe) eventType ∧
      Mentions (userQuery eventType guests vibe) (toString guests) ∧
      Mentions (userQuery eventType guests vibe) vibe ∧
      (vibePayload eventType guests vibe).getProp (.named "contents") =
        some (.arr [.obj [("parts", .arr [.obj [("text",
          .str (userQuery eventType guests vibe))]])]])) ∧
    (vibePayload eventType guests vibe).getProp (.named "systemInstruction") =
      some (.obj [("parts", .arr [.obj [("text", .str "You are a world-class luxury event planner for a high-end rooftop restaurant called Velora. Your goal is to generate elegant, sophisticated, and creative suggestions for private dining events based on user input. Respond with only a JSON object.")]])]) ∧
    ∃ config schema properties,
      (vibePayload eventType guests vibe).getProp (.named "generationConfig") = some config ∧
      config.getProp (.named "responseMimeType") = some (.str "application/json") ∧
      config.getProp (.named "responseSchema") = some schema ∧
      schema.getProp (.named "properties") = some properties ∧
      properties.keys.length = 5 ∧
      (∀ f, f ∈ properties.keys → ∃ p, properties.getProp (.named f) = some p ∧
        p.getProp (.named "type") = some (.str "STRING")) ∧
      schema.getProp (.named "required") = some (.arr (properties.keys.map Json.str)) ∧
      properties.keys = ["themeSuggestion", "themeDescription", "signatureCocktail",
        "cocktailRecipeIdea", "invitationDraft"] ∧
      properties.keys = requiredFields ∧
      properties.keys = resultDisplayFields := by
  have hm1 : Mentions (userQuery eventType guests vibe) eventType := by
    have h := mentions_middle "Generate a creative event suggestion for: Event Type: " eventType
      (", Guests: " ++ toString guests ++ " people, Vibe/Keywords: " ++ vibe ++
        ". Focus on a high-end, elegant execution for a Pune rooftop.")
    simpa [userQuery, String.append_assoc] using h
  have hm2 : Mentions (userQuery eventType guests vibe) (toString guests) := by
    have h := mentions_middle
      ("Generate a creative event suggestion for: Event Type: " ++ eventType ++ ", Guests: ")
      (toString guests)
      (" people, Vibe/Keywords: " ++ vibe ++
        ". Focus on a high-end, elegant execution for a Pune rooftop.")
    simpa [userQuery, String.append_assoc] using h
  have hm3 : Mentions (userQuery eventType guests vibe) vibe := by
    have h := mentions_middle
      ("Generate a creative event suggestion for: Event Type: " ++ eventType ++ ", Guests: " ++
        toString guests ++ " people, Vibe/Keywords: ")
      vibe ". Focus on a high-end, elegant execution for a Pune rooftop."
    simpa [userQuery, String.append_assoc] using h
  refine ⟨rfl, rfl, ⟨hm1, hm2, hm3, rfl⟩, rfl, _, _, _, rfl, rfl, rfl, rfl, rfl, ?_, rfl, rfl,
    rfl, rfl⟩
  intro f hf
  simp only [Json.keys, List.map_cons, List.map_nil, List.mem_cons, List.mem_singleton,
    List.not_mem_nil, or_false] at hf
  rcases hf with h | h | h | h | h <;> subst h <;> exact ⟨_, rfl, rfl⟩

/-! ## C19 -/

/-- C19, the statement as written fails: with first jitter draw `1 - 2^-53` (the
largest double below one) and second draw `0`, the waits after the iterations 0 and
1 are both exactly 2000 ms, so the waits are not strictly increasing, and 2000
belongs to the range of possible waits of both indices. -/
theorem C19_counterexample_equal_delays :
    (∀ i, (0 : ℚ) ≤ tieEnv.random i ∧ tieEnv.random i < 1) ∧
    IsDouble (tieEnv.random 0) ∧ IsDouble (tieEnv.random 1) ∧
    delays (GeminiFetcher tieEnv Json.null).trace = [2000, 2000, 4000, 8000] ∧
    ¬ List.Pairwise (fun a b => a < b) (delays (GeminiFetcher tieEnv Json.null).trace) ∧
    backoffDelay 0 nearOne53 = 2000 ∧ backoffDelay 1 0 = 2000 := by
  have hr : ∀ i, (0 : ℚ) ≤ tieEnv.random i ∧ tieEnv.random i < 1 := by
    intro i
    show (0 : ℚ) ≤ (if i = 0 then nearOne53 else 0) ∧ (if i = 0 then nearOne53 else 0) < 1
    split <;> norm_num [nearOne53]
  have hd := delays_tieEnv_five
  have h1 : backoffDelay 1 0 = 2000 := by
    rw [backoffDelay_exact 1 0 0 (by norm_num) (by norm_num)]
    norm_num
  refine ⟨hr, isDouble_nearOne53, isDouble_zero, hd, ?_, backoffDelay_zero_nearOne53, h1⟩
  rw [hd]
  intro hp
  have h := (List.pairwise_cons.mp hp).1 2000 (by simp)
  exact absurd h (lt_irrefl _)

/-- C19, amended. When the jitter draws lie in `[0, 1)`, the backoff waits of a run
never decrease: each is at most every later one, in particular the wait after
iteration `i + 1` is at least the wait after iteration `i`, and it is greater when
`i` is at least one (and at most 43, which covers the bound 5 of the code). The
closed intervals of possible waits of two indices `i < j` meet at most in an end
point: every value of the first is at most every value of the second. -/
theorem C19_delays_never_decrease (N : Nat) (env : Env) (payload : Json)
    (hr : ∀ i, 0 ≤ env.random i ∧ env.random i < 1) :
    List.Pairwise (fun a b => a ≤ b) (delays (GeminiFetcherWith N env payload).trace) ∧
    (∀ i d1 d2, (delays (GeminiFetcherWith N env payload).trace)[i]? = some d1 →
      (delays (GeminiFetcherWith N env payload).trace)[i + 1]? = some d2 →
      d1 ≤ d2 ∧ (1 ≤ i → i ≤ 43 → d1 < d2)) ∧
    (∀ (i j : Nat) (x y : ℚ), i < j → x ≤ 2 ^ i * 1000 + 1000 → 2 ^ j * 1000 ≤ y → x ≤ y) := by
  obtain ⟨m, -, hm⟩ := delays_run env N payload
  have hpw : List.Pairwise (fun a b => a ≤ b)
      (delays (GeminiFetcherWith N env payload).trace) := by
    rw [hm, List.pairwise_map]
    exact (List.pairwise_lt_range m).imp
      (fun {a b} hab => backoffDelay_mono a b _ _ hab (hr a).1 (hr a).2.le (hr b).1)
  refine ⟨hpw, ?_, ?_⟩
  · intro i d1 d2 h1 h2
    rw [hm, List.getElem?_map] at h1 h2
    have hi2 : i + 1 < m := by
      by_contra hge
      rw [List.getElem?_eq_none (by simpa using hge)] at h2
      simp at h2
    rw [List.getElem?_range (by omega)] at h1
    rw [List.getElem?_range hi2] at h2
    simp only [Option.map_some', Option.some.injEq] at h1 h2
    subst h1
    subst h2
    refine ⟨backoffDelay_mono i (i + 1) _ _ (Nat.lt_succ_self i) (hr i).1 (hr i).2.le
      (hr (i + 1)).1, ?_⟩
    intro hi1 hi43
    exact backoffDelay_strict i (i + 1) _ _ hi1 hi43 (Nat.lt_succ_self i) (hr i).1
      (hr i).2.le (hr (i + 1)).1
  · intro i j x y hij hx hy
    have h1 : (2 : ℚ) ^ 0 ≤ 2 ^ i := pow_le_pow_right₀ (by norm_num) (Nat.zero_le i)
    have h2 : (2 : ℚ) ^ (i + 1) ≤ 2 ^ j := pow_le_pow_right₀ (by norm_num) hij
    rw [pow_zero] at h1
    rw [pow_succ] at h2
    nlinarith

/-- C19 amended, on a run with bound 5 in which every call is rejected and every
draw is 1/2: the waits are 1500, 2500, 4500 and 8500 ms. -/
theorem C19_delays_never_decrease_witness :
    (∀ i, (0 : ℚ) ≤ downEnv.random i ∧ downEnv.random i < 1) ∧
    delays (GeminiFetcherWith 5 downEnv Json.null).trace = [1500, 2500, 4500, 8500] ∧
    List.Pairwise (fun a b => a ≤ b) (delays (GeminiFetcherWith 5 downEnv Json.null).trace) :=
  have hr : ∀ i, (0 : ℚ) ≤ downEnv.random i ∧ downEnv.random i < 1 := by
    intro i
    norm_num [downEnv]
  ⟨hr, delays_downEnv_five, (C19_delays_never_decrease 5 downEnv Json.null hr).1⟩

/-! ## C20 -/

/-- C20, the statement as written fails: when every call is rejected and every
jitter draw is `1 - 2^-53` (the largest double below one), the four waits are
exactly 2000, 3000, 5000 and 9000 ms and their sum is 19000 ms, which is not less
than 19000. -/
theorem C20_counterexample_total_reaches_19000 :
    (∀ k, k < MAX_RETRIES → ∃ e, tryBlock nearOne53Env Json.null k = .error e) ∧
    (∀ i, (0 : ℚ) ≤ nearOne53Env.random i ∧ nearOne53Env.random i < 1 ∧
      IsDouble (nearOne53Env.random i)) ∧
    delays (GeminiFetcher nearOne53Env Json.null).trace = [2000, 3000, 5000, 9000] ∧
    (delays (GeminiFetcher nearOne53Env Json.null).trace).sum = 19000 ∧
    ¬ ((delays (GeminiFetcher nearOne53Env Json.null).trace).sum < 19000) := by
  have hd := delays_nearOne53Env_five
  have hsum : (delays (GeminiFetcher nearOne53Env Json.null).trace).sum = 19000 := by
    rw [hd]
    norm_num
  refine ⟨fun _ _ => ⟨_, rfl⟩, ?_, hd, hsum, by rw [hsum]; norm_num⟩
  intro i
  show (0 : ℚ) ≤ nearOne53 ∧ nearOne53 < 1 ∧ IsDouble nearOne53
  exact ⟨by norm_num [nearOne53], by norm_num [nearOne53], isDouble_nearOne53⟩

/-- C20, amended. With `MAX_RETRIES = 5`, when all five iterations fail and the
jitter draws lie in `[0, 1)`, the sum of the backoff waits of the run is at least
15000 and at most 19000 milliseconds. -/
theorem C20_total_backoff_when_exhausted (env : Env) (payload : Json)
    (hfail : ∀ k, k < MAX_RETRIES → ∃ e, tryBlock env payload k = .error e)
    (hr : ∀ i, 0 ≤ env.random i ∧ env.random i < 1) :
    15000 ≤ (delays (GeminiFetcher env payload).trace).sum ∧
    (delays (GeminiFetcher env payload).trace).sum ≤ 19000 := by
  rw [delays_all_failed_five env payload hfail]
  have hb : ∀ i, i ≤ 3 → (2 : ℚ) ^ i * 1000 ≤ backoffDelay i (env.random i) ∧
      backoffDelay i (env.random i) ≤ 2 ^ i * 1000 + 1000 := fun i hi =>
    ⟨backoffDelay_ge i _ (hr i).1, backoffDelay_le i _ (by omega) (hr i).1 (hr i).2.le⟩
  have h0 := hb 0 (by norm_num)
  have h1 := hb 1 (by norm_num)
  have h2 := hb 2 (by norm_num)
  have h3 := hb 3 (by norm_num)
  norm_num at h0 h1 h2 h3
  exact sum_four_bounds _ _ _ _ h0 h1 h2 h3

/-- C20 amended, on a transport that rejects every call and draws 1/2 each time:
the waits add up to 17000 ms. -/
theorem C20_total_backoff_when_exhausted_witness :
    (∀ k, k < MAX_RETRIES → ∃ e, tryBlock downEnv Json.null k = .error e) ∧
    (∀ i, (0 : ℚ) ≤ downEnv.random i ∧ downEnv.random i < 1) ∧
    (15000 : ℚ) ≤ (delays (GeminiFetcher downEnv Json.null).trace).sum ∧
    (delays (GeminiFetcher downEnv Json.null).trace).sum ≤ 19000 :=
  have hr : ∀ i, (0 : ℚ) ≤ downEnv.random i ∧ downEnv.random i < 1 := by
    intro i
    norm_num [downEnv]
  have h := C20_total_backoff_when_exhausted downEnv Json.null (fun _ _ => ⟨_, rfl⟩) hr
  ⟨fun _ _ => ⟨_, rfl⟩, hr, h.1, h.2⟩

/-! ## C21 -/

/-- C21. When the bound `N` is at least one and the run does not return a value,
the `try` block of the last iteration `N - 1` threw some error `e`, the code after
the loop is entered with `lastError` equal to `e` (not its initial `null`), and the
read of `lastError.message` succeeds: the run throws the exhaustion error built
from `e.message`, not a `TypeError`. With the bound 0 the loop body never runs (no
network call is made), the code after the loop is entered with `lastError` still
`null`, and the read of `lastError.message` throws a `TypeError`. -/
theorem C21_lastError_assigned_when_exhausted (N : Nat) (env : Env) (payload : Json)
    (hN : 1 ≤ N) (hno : ∀ v, (GeminiFetcherWith N env payload).outcome ≠ .ok v) :
    (∃ e, tryBlock env payload (N - 1) = .error e ∧
      GeminiFetcherWith N env payload =
        afterLoop { lastError := some e, trace := failedTrace env N payload N } ∧
      (GeminiFetcherWith N env payload).outcome =
        .error ⟨"Error", exhaustionText ++ e.message⟩ ∧
      (GeminiFetcherWith N env payload).outcome ≠
        .error ⟨"TypeError", "Cannot read properties of null (reading \x27message\x27)"⟩) ∧
    GeminiFetcherWith 0 env payload = afterLoop { lastError := none, trace := [] } ∧
    callCount (GeminiFetcherWith 0 env payload).trace = 0 ∧
    (GeminiFetcherWith 0 env payload).trace = [Event.consoleError none] ∧
    (GeminiFetcherWith 0 env payload).outcome =
      .error ⟨"TypeError", "Cannot read properties of null (reading \x27message\x27)"⟩ := by
  have h0 : GeminiFetcherWith 0 env payload = afterLoop { lastError := none, trace := [] } := by
    rw [GeminiFetcherWith, retryLoop_exit _ _ _ _ _ (le_refl _)]
  refine ⟨?_, h0, by rw [h0]; rfl, by rw [h0]; rfl, by rw [h0]; rfl⟩
  rcases run_cases env N payload with ⟨k, v, -, -, -, hrun⟩ | ⟨hfail, hrun⟩
  · exact absurd (by rw [hrun]) (hno v)
  · obtain ⟨e, he⟩ := hfail (N - 1) (by omega)
    have hlast : lastErrorAfter env payload N = some e := by
      obtain ⟨n, rfl⟩ : ∃ n, N = n + 1 := ⟨N - 1, by omega⟩
      simp only [Nat.add_sub_cancel] at he
      simp [lastErrorAfter, errorOf, he]
    rw [hlast] at hrun
    refine ⟨e, he, hrun, by rw [hrun]; rfl, ?_⟩
    rw [hrun]
    intro h
    simp [afterLoop] at h

/-- C21 at the bound of the code on a transport that rejects every call: the run
does not return, and the code after the loop reads the message of the last
rejection. -/
theorem C21_lastError_assigned_when_exhausted_witness :
    1 ≤ MAX_RETRIES ∧
    (∀ v, (GeminiFetcherWith MAX_RETRIES downEnv Json.null).outcome ≠ .ok v) ∧
    ∃ e, tryBlock downEnv Json.null (MAX_RETRIES - 1) = .error e ∧
      (GeminiFetcherWith MAX_RETRIES downEnv Json.null).outcome =
        .error ⟨"Error", exhaustionText ++ e.message⟩ :=
  have hno : ∀ v, (GeminiFetcherWith MAX_RETRIES downEnv Json.null).outcome ≠ .ok v := by
    intro v
    rw [run_all_failed downEnv MAX_RETRIES Json.null (by decide) (fun _ _ => ⟨_, rfl⟩)]
    intro h
    cases h
  have h := C21_lastError_assigned_when_exhausted MAX_RETRIES downEnv Json.null (by decide) hno
  ⟨by decide, hno, h.1.elim fun e he => ⟨e, he.1, he.2.2.1⟩⟩

/-! ## Lemmas on `parseInt` -/

theorem digitChar_toNat (d : Nat) (h : d < 10) : (Nat.digitChar d).toNat = 48 + d := by
  interval_cases d <;> rfl

theorem radixDigit_digitChar (d : Nat) (h : d < 10) : radixDigit 10 (Nat.digitChar d) = some d := by
  have ht := digitChar_toNat d h
  simp only [radixDigit, digitValue, ht]
  have h1 : 48 ≤ 48 + d ∧ 48 + d ≤ 57 := by omega
  simp [h1, h]

theorem not_whiteSpace_of_digit (c : Char) (d : Nat) (h : d < 10) (hc : c.toNat = 48 + d) :
    isJSWhiteSpace c = false := by
  simp only [isJSWhiteSpace, hc]
  interval_cases d <;> decide

theorem leadingDigits_map_digitChar (vals : List Nat) (h : ∀ v, v ∈ vals → v < 10) :
    leadingDigits 10 (vals.map Nat.digitChar) = vals := by
  induction vals with
  | nil => rfl
  | cons v vs ih =>
    simp only [List.map_cons, leadingDigits, radixDigit_digitChar v (h v (List.mem_cons_self _ _))]
    rw [ih (fun w hw => h w (List.mem_cons_of_mem _ hw))]

theorem stripHex_map_digitChar (vals : List Nat) (h : ∀ v, v ∈ vals → v < 10) :
    stripHex (vals.map Nat.digitChar) = (10, vals.map Nat.digitChar) := by
  match vals, h with
  | [], _ => rfl
  | [_], _ => rfl
  | a :: b :: rest, h =>
    have hb := digitChar_toNat b (h b (by simp))
    have hlt := h b (by simp)
    simp only [List.map_cons, stripHex, hb]
    rw [if_neg (by omega)]

theorem stripSign_map_digitChar (vals : List Nat) (h : ∀ v, v ∈ vals → v < 10) :
    stripSign (vals.map Nat.digitChar) = (false, vals.map Nat.digitChar) := by
  match vals, h with
  | [], _ => rfl
  | a :: rest, h =>
    have ha := digitChar_toNat a (h a (by simp))
    have hlt := h a (by simp)
    simp only [List.map_cons, stripSign, ha]
    rw [if_neg (by omega), if_neg (by omega)]

theorem dropWhile_map_digitChar (vals : List Nat) (h : ∀ v, v ∈ vals → v < 10) :
    (vals.map Nat.digitChar).dropWhile isJSWhiteSpace = vals.map Nat.digitChar := by
  match vals, h with
  | [], _ => rfl
  | a :: rest, h =>
    have hw := not_whiteSpace_of_digit _ a (h a (by simp)) (digitChar_toNat a (h a (by simp)))
    simp [List.dropWhile, hw]

/-- The digits that `Nat.toDigitsCore` puts in front of `ds`. -/
theorem toDigitsCore_spec (fuel : Nat) : ∀ (n : Nat) (ds : List Char), n < fuel →
    ∃ vals : List Nat, vals ≠ [] ∧ (∀ v, v ∈ vals → v < 10) ∧
      Nat.toDigitsCore 10 fuel n ds = vals.map Nat.digitChar ++ ds ∧
      vals.foldl (fun acc x => acc * 10 + x) 0 = n := by
  induction fuel with
  | zero => intro n ds h; omega
  | succ fuel ih =>
    intro n ds h
    by_cases hq : n / 10 = 0
    · refine ⟨[n % 10], by simp, ?_, ?_, ?_⟩
      · intro v hv
        simp only [List.mem_singleton] at hv
        omega
      · simp [Nat.toDigitsCore, hq]
      · simp only [List.foldl_cons, List.foldl_nil]
        omega
    · obtain ⟨vals, hne, hlt, heq, hval⟩ := ih (n / 10) (Nat.digitChar (n % 10) :: ds) (by omega)
      refine ⟨vals ++ [n % 10], by simp, ?_, ?_, ?_⟩
      · intro v hv
        rcases List.mem_append.mp hv with hv | hv
        · exact hlt v hv
        · simp only [List.mem_singleton] at hv
          omega
      · simp [Nat.toDigitsCore, hq, heq]
      · simp only [List.foldl_append, List.foldl_cons, List.foldl_nil, hval]
        omega

theorem parseIntChars_digits (vals : List Nat) (hne : vals ≠ []) (h : ∀ v, v ∈ vals → v < 10) :
    parseIntChars (vals.map Nat.digitChar) =
      some ((vals.foldl (fun acc x => acc * 10 + x) 0 : Nat) : Int) := by
  simp only [parseIntChars, dropWhile_map_digitChar vals h, stripSign_map_digitChar vals h,
    stripHex_map_digitChar vals h, leadingDigits_map_digitChar vals h]
  cases vals with
  | nil => exact absurd rfl hne
  | cons v vs => simp

theorem parseIntChars_neg_digits (vals : List Nat) (hne : vals ≠ [])
    (h : ∀ v, v ∈ vals → v < 10) :
    parseIntChars (Char.ofNat 45 :: vals.map Nat.digitChar) =
      some (-((vals.foldl (fun acc x => acc * 10 + x) 0 : Nat) : Int)) := by
  have h1 : (Char.ofNat 45 :: vals.map Nat.digitChar).dropWhile isJSWhiteSpace =
      Char.ofNat 45 :: vals.map Nat.digitChar := by
    have : isJSWhiteSpace (Char.ofNat 45) = false := by decide
    simp [List.dropWhile, this]
  have h2 : stripSign (Char.ofNat 45 :: vals.map Nat.digitChar) =
      (true, vals.map Nat.digitChar) := by
    simp only [stripSign]
    rw [if_pos (by decide)]
  simp only [parseIntChars, h1, h2, stripHex_map_digitChar vals h,
    leadingDigits_map_digitChar vals h]
  cases vals with
  | nil => exact absurd rfl hne
  | cons v vs => simp

/-- `parseInt` reads back the decimal string of every integer. -/
theorem parseInt_toString (n : Int) : parseInt (toString n) = some n := by
  cases n with
  | ofNat m =>
    obtain ⟨vals, hne, hlt, heq, hval⟩ := toDigitsCore_spec (m + 1) m [] (Nat.lt_succ_self m)
    have hd : (toString (Int.ofNat m)).data = vals.map Nat.digitChar := by
      rw [← List.append_nil (vals.map Nat.digitChar), ← heq]
      rfl
    rw [parseInt, hd, parseIntChars_digits vals hne hlt, hval]
    rfl
  | negSucc m =>
    obtain ⟨vals, hne, hlt, heq, hval⟩ :=
      toDigitsCore_spec (m + 1 + 1) (m + 1) [] (Nat.lt_succ_self _)
    have hd : (toString (Int.negSucc m)).data = Char.ofNat 45 :: vals.map Nat.digitChar := by
      rw [← List.append_nil (vals.map Nat.digitChar), ← heq]
      rfl
    rw [parseInt, hd, parseIntChars_neg_digits vals hne hlt, hval]
    rfl

theorem onGuestsChange_bounds (p : String → Option Int) (s : String) :
    1 ≤ onGuestsChange p s ∧ onGuestsChange p s ≤ 30 := by
  unfold onGuestsChange
  exact ⟨le_min (by norm_num) (le_max_left _ _), min_le_left _ _⟩

/-! ## C22 -/

/-- C22. The value stored by the guest-count handler, `min(30, max(1, parseInt(s)
|| 1))`: when the decimal string of an integer `n` is entered it is `n` for `1 ≤ n
≤ 30`, 1 for `n ≤ 0` and 30 for `n > 30`; for every text `s` from which `parseInt`
reads no number, the empty text included, it is 1; and entering the decimal string
of a stored value stores the same value again. For any text from which `parseInt`
reads an integer `m`, the stored value is `min 30 (max 1 m)`. -/
theorem C22_guest_clamp_saturates (n : Int) (s : String) :
    (1 ≤ n → n ≤ 30 → onGuestsChange parseInt (toString n) = n) ∧
    (n ≤ 0 → onGuestsChange parseInt (toString n) = 1) ∧
    (30 < n → onGuestsChange parseInt (toString n) = 30) ∧
    (parseInt s = none → onGuestsChange parseInt s = 1) ∧
    (parseInt "" = none ∧ onGuestsChange parseInt "" = 1) ∧
    onGuestsChange parseInt (toString (onGuestsChange parseInt s)) =
      onGuestsChange parseInt s ∧
    (∀ m, parseInt s = some m → onGuestsChange parseInt s = min 30 (max 1 m)) := by
  have hread : ∀ k : Int, onGuestsChange parseInt (toString k) = min 30 (max 1 k) := by
    intro k
    simp only [onGuestsChange, parseInt_toString]
    split <;> omega
  refine ⟨?_, ?_, ?_, ?_, ⟨rfl, rfl⟩, ?_, ?_⟩
  · intro h1 h2
    rw [hread]
    omega
  · intro h
    rw [hread]
    omega
  · intro h
    rw [hread]
    omega
  · intro h
    simp only [onGuestsChange, h]
    rfl
  · rw [hread]
    have h := onGuestsChange_bounds parseInt s
    omega
  · intro m h
    simp only [onGuestsChange, h]
    split <;> omega

/-- C22 on the inputs 12, -3, 45 and a text without digits. -/
theorem C22_guest_clamp_saturates_witness :
    onGuestsChange parseInt "12" = 12 ∧ onGuestsChange parseInt "-3" = 1 ∧
    onGuestsChange parseInt "45" = 30 ∧ parseInt "abc" = none ∧
    onGuestsChange parseInt "abc" = 1 :=
  ⟨(C22_guest_clamp_saturates 12 "").1 (by decide) (by decide),
    (C22_guest_clamp_saturates (-3) "").2.1 (by decide),
    (C22_guest_clamp_saturates 45 "").2.2.1 (by decide),
    rfl,
    (C22_guest_clamp_saturates 0 "abc").2.2.2.1 rfl⟩

end Velora
